import Mathlib

/-!
Verification development for the MMA webhook service (`src/app.py`).

The Python source is shallowly embedded: every function below is a direct
translation of the corresponding Python function, with

* Python strings modelled as Lean `String` and all character-level
  operations re-implemented by structural recursion over `String.data`
  (so that the kernel can evaluate them in `decide` proofs);
* Python `dict`s modelled as ordered association lists with
  insert-or-overwrite-in-place (`dinsert`), preserving both lookup
  semantics and iteration order;
* `difflib.SequenceMatcher.ratio` modelled exactly (the Ratcliff-Obershelp
  longest-matching-block recursion, including the tie-breaking of the
  dynamic-programming scan), with scores as exact fractions `Frac`
  (numerator/denominator over `Nat`, compared by cross-multiplication)
  instead of IEEE floats;
* Python `re` patterns modelled by a small backtracking regular-expression
  engine with Python `re.search` semantics (leftmost match position,
  ordered alternation, greedy quantifiers, capture groups);
* network fetches modelled by data already resident in an explicit state
  (`AppState.fighters` / `AppState.rankings`), or, for the single-entity
  fetchers, by an explicit `FetchOutcome` argument;
* wall-clock time as an explicit rational parameter.
-/

/-! ## Basic string helpers (Python semantics, kernel-reducible) -/

/-- Python `str.lower` restricted to ASCII (all data handled by the service
is ASCII).  Written as an explicit 26-way case split so that proofs can
case on it and the kernel can reduce it. -/
def lowChar (c : Char) : Char :=
  if c = 'A' then 'a' else if c = 'B' then 'b' else if c = 'C' then 'c'
  else if c = 'D' then 'd' else if c = 'E' then 'e' else if c = 'F' then 'f'
  else if c = 'G' then 'g' else if c = 'H' then 'h' else if c = 'I' then 'i'
  else if c = 'J' then 'j' else if c = 'K' then 'k' else if c = 'L' then 'l'
  else if c = 'M' then 'm' else if c = 'N' then 'n' else if c = 'O' then 'o'
  else if c = 'P' then 'p' else if c = 'Q' then 'q' else if c = 'R' then 'r'
  else if c = 'S' then 's' else if c = 'T' then 't' else if c = 'U' then 'u'
  else if c = 'V' then 'v' else if c = 'W' then 'w' else if c = 'X' then 'x'
  else if c = 'Y' then 'y' else if c = 'Z' then 'z' else c

/-- Python `str.lower` (ASCII). -/
def lowStr (s : String) : String := ⟨s.data.map lowChar⟩

/-- The whitespace characters Python `str.strip`/`str.split` treat as
separators (ASCII subset). -/
def pySpace (c : Char) : Bool :=
  c.toNat = 32 || c.toNat = 9 || c.toNat = 10 || c.toNat = 13 ||
  c.toNat = 11 || c.toNat = 12

/-- Python `str.strip()`. -/
def pyStrip (s : String) : String :=
  ⟨((s.data.dropWhile pySpace).reverse.dropWhile pySpace).reverse⟩

/-- Python `needle in hay` on lists of characters. -/
def subList (needle : List Char) : List Char → Bool
  | [] => needle.isPrefixOf []
  | c :: t => needle.isPrefixOf (c :: t) || subList needle t

/-- Python substring containment `needle in hay`. -/
def subStr (needle hay : String) : Bool := subList needle.data hay.data

/-- Python `str.split()` (split on whitespace runs, dropping empties). -/
def pyWordsGo : List Char → List Char → List String
  | acc, [] => if acc = [] then [] else [⟨acc.reverse⟩]
  | acc, c :: t =>
    if pySpace c then
      (if acc = [] then pyWordsGo [] t else ⟨acc.reverse⟩ :: pyWordsGo [] t)
    else pyWordsGo (c :: acc) t

/-- Python `str.split()`. -/
def pyWords (s : String) : List String := pyWordsGo [] s.data

/-- Python `str.replace(old, new)` (all occurrences, left to right), with
explicit fuel (the input length suffices). -/
def replGo (old new : List Char) : Nat → List Char → List Char
  | _, [] => []
  | 0, l => l
  | fuel + 1, c :: t =>
    if old ≠ [] ∧ old.isPrefixOf (c :: t) then
      new ++ replGo old new fuel (t.drop (old.length - 1))
    else c :: replGo old new fuel t

/-- Python `str.replace(old, new)`. -/
def replStr (s old new : String) : String :=
  ⟨replGo old.data new.data s.data.length s.data⟩

/-- Python `str.endswith(c)` for a single character. -/
def endsWithChar (s : String) (c : Char) : Bool :=
  match s.data.reverse with
  | [] => false
  | d :: _ => d = c

/-- Python `str.rstrip(c)` for a single character. -/
def rstripChar (s : String) (c : Char) : String :=
  ⟨(s.data.reverse.dropWhile (· = c)).reverse⟩

/-- Python string comparison (`<` on code points, lexicographic). -/
def pyStrLtL : List Char → List Char → Bool
  | [], [] => false
  | [], _ :: _ => true
  | _ :: _, [] => false
  | a :: s, b :: t =>
    if a.toNat < b.toNat then true
    else if b.toNat < a.toNat then false
    else pyStrLtL s t

/-- Python string `<`. -/
def pyStrLt (a b : String) : Bool := pyStrLtL a.data b.data

/-! ## Ordered dictionaries (Python `dict` semantics) -/

/-- Lookup: first (and by construction only) binding of the key. -/
def dlookup (m : List (String × String)) (k : String) : Option String :=
  match m.find? (fun p => p.1 == k) with
  | some p => some p.2
  | none => none

/-- Python `d[k] = v`: overwrite in place if the key exists (keeping its
position, as an insertion-ordered `dict` does), else append. -/
def dinsert (m : List (String × String)) (k v : String) : List (String × String) :=
  if m.any (fun p => p.1 == k) then
    m.map (fun p => if p.1 == k then (k, v) else p)
  else m ++ [(k, v)]

/-! ## Exact fractions for similarity scores

`difflib` scores are floats in Python; here they are exact nonnegative
fractions, compared by cross-multiplication (no gcd, so the kernel
evaluates them cheaply).  `⟨3, 5⟩` stands for the literal `0.6` of the
source, `⟨4, 5⟩` for `0.8`, `⟨3, 10⟩` for `0.3`. -/

structure Frac where
  num : Nat
  den : Nat
deriving DecidableEq, Repr

/-- Strict `<` by cross-multiplication. -/
def Frac.ltb (a b : Frac) : Bool := a.num * b.den < b.num * a.den

/-- Addition (no normalisation). -/
def Frac.add (a b : Frac) : Frac := ⟨a.num * b.den + b.num * a.den, a.den * b.den⟩

/-- Multiplication. -/
def Frac.mul (a b : Frac) : Frac := ⟨a.num * b.num, a.den * b.den⟩

/-- Python `max(a, b)` (returns `a` on ties). -/
def Frac.maxF (a b : Frac) : Frac := if Frac.ltb a b then b else a

/-- `a ≤ b` by cross-multiplication. -/
def Frac.leb (a b : Frac) : Bool := a.num * b.den ≤ b.num * a.den

/-! ## difflib.SequenceMatcher (no junk, autojunk inert below 200 chars)

`find_longest_match` is the dynamic-programming scan of the CPython
implementation: for each position `i` of `a` (ascending) and each position
`j` of `b` (ascending), the length `k` of the common diagonal run ending at
`(i, j)` is `j2len[j-1] + 1` when `a[i] == b[j]`; the recorded best block is
updated exactly when `k` exceeds the best size so far, which reproduces
CPython's tie-breaking (earliest maximal block in scan order).  With no
junk characters the post-scan extension loops of CPython are no-ops, so
they are omitted. -/

/-- One row of the scan: characters of `b` with index `j`, previous row
`prev`, current best `(besti, bestj, bestsize)`. -/
def lcmRow (ai : Char) : List Char → Nat → List Nat → Nat → Nat × Nat × Nat →
    List Nat × (Nat × Nat × Nat)
  | [], _, _, _, best => ([], best)
  | bc :: brest, j, prev, i, best =>
    let k := if bc = ai then (if j = 0 then 0 else prev.getD (j - 1) 0) + 1 else 0
    let best1 := if bc = ai ∧ best.2.2 < k then (i + 1 - k, j + 1 - k, k) else best
    let rest := lcmRow ai brest (j + 1) prev i best1
    (k :: rest.1, rest.2)

/-- All rows: characters of `a` with index `i`. -/
def lcmGo (b : List Char) : List Char → Nat → List Nat → Nat × Nat × Nat →
    Nat × Nat × Nat
  | [], _, _, best => best
  | ac :: arest, i, prev, best =>
    let row := lcmRow ac b 0 prev i best
    lcmGo b arest (i + 1) row.1 row.2

/-- `SequenceMatcher.find_longest_match` over the whole strings:
`(besti, bestj, bestsize)`. -/
def findLongestMatch (a b : List Char) : Nat × Nat × Nat :=
  lcmGo b a 0 [] (0, 0, 0)

/-- Total size of all matching blocks (`get_matching_blocks`), fuelled by
the length of `a` (each recursive call strictly shortens `a`). -/
def matchingTotal : Nat → List Char → List Char → Nat
  | 0, _, _ => 0
  | fuel + 1, a, b =>
    let m := findLongestMatch a b
    if m.2.2 = 0 then 0
    else
      matchingTotal fuel (a.take m.1) (b.take m.2.1) + m.2.2 +
      matchingTotal fuel (a.drop (m.1 + m.2.2)) (b.drop (m.2.1 + m.2.2))

/-- `SequenceMatcher(None, a, b).ratio()`: `2·M / (|a| + |b|)`, and `1.0`
when both strings are empty. -/
def ratioScore (a b : List Char) : Frac :=
  let t := a.length + b.length
  if t = 0 then ⟨1, 1⟩ else ⟨2 * matchingTotal (a.length + 1) a b, t⟩

/-- `difflib.get_close_matches(word, keys, n=1, cutoff)`: the candidates
with ratio ≥ cutoff, maximised by the pair (ratio, key) — `heapq.nlargest`
compares the `(score, string)` tuples, so ties on the score are broken
towards the lexicographically larger key. -/
def closeMatch1 (word : List Char) (keys : List String) (cutoff : Frac) :
    Option String :=
  (keys.foldl (fun best x =>
    let r := ratioScore x.data word
    if Frac.leb cutoff r then
      match best with
      | none => some (x, r)
      | some bp =>
        if Frac.ltb bp.2 r ∨ (¬ Frac.ltb bp.2 r ∧ ¬ Frac.ltb r bp.2 ∧ pyStrLt bp.1 x)
        then some (x, r) else some bp
    else best) none).map (fun p => p.1)

/-! ## A backtracking regular-expression engine (Python `re.search` semantics)

Only the constructs used by the source's patterns are supported: literal
strings, single-character classes, concatenation, ordered alternation,
greedy `?`, greedy `*`/`+` over a character class, numbered capture groups
and the `$` anchor.  `search` tries match positions left to right; at a
position, alternation prefers the earlier branch and quantifiers prefer
longer matches, exactly as CPython's backtracking engine does. -/

inductive Rx where
  | eps : Rx
  | fail : Rx
  | lit : String → Rx
  | cls : (Char → Bool) → Rx
  | seq : Rx → Rx → Rx
  | alt : Rx → Rx → Rx
  | opt : Rx → Rx
  | star : (Char → Bool) → Rx
  | plus : (Char → Bool) → Rx
  | grp : Nat → Rx → Rx
  | eos : Rx

/-- Captured groups: index ↦ text, most recent first. -/
def Caps := List (Nat × String)

/-- Greedy `*`: try consuming `m` class characters, longest first. -/
def starTry (inp : List Char) (k : List Char → Caps → Option Caps)
    (caps : Caps) : Nat → Option Caps
  | 0 => k inp caps
  | m + 1 =>
    match k (inp.drop (m + 1)) caps with
    | some r => some r
    | none => starTry inp k caps m

/-- Greedy `+`: like `starTry` but at least one character. -/
def plusTry (inp : List Char) (k : List Char → Caps → Option Caps)
    (caps : Caps) : Nat → Option Caps
  | 0 => none
  | m + 1 =>
    match k (inp.drop (m + 1)) caps with
    | some r => some r
    | none => plusTry inp k caps m

/-- Length of the maximal run of class characters. -/
def runLen (f : Char → Bool) : List Char → Nat
  | [] => 0
  | c :: t => if f c then runLen f t + 1 else 0

/-- CPS backtracking matcher: match `r` against a prefix of `inp`, then
call the continuation with the rest and the captures. -/
def matchRx : Rx → List Char → (List Char → Caps → Option Caps) → Caps → Option Caps
  | .eps, inp, k, caps => k inp caps
  | .fail, _, _, _ => none
  | .lit s, inp, k, caps =>
    if s.data.isPrefixOf inp then k (inp.drop s.data.length) caps else none
  | .cls f, inp, k, caps =>
    match inp with
    | [] => none
    | c :: rest => if f c then k rest caps else none
  | .seq a b, inp, k, caps =>
    matchRx a inp (fun inp2 caps2 => matchRx b inp2 k caps2) caps
  | .alt a b, inp, k, caps =>
    match matchRx a inp k caps with
    | some r => some r
    | none => matchRx b inp k caps
  | .opt a, inp, k, caps =>
    match matchRx a inp k caps with
    | some r => some r
    | none => k inp caps
  | .star f, inp, k, caps => starTry inp k caps (runLen f inp)
  | .plus f, inp, k, caps => plusTry inp k caps (runLen f inp)
  | .grp i a, inp, k, caps =>
    matchRx a inp
      (fun inp2 caps2 =>
        k inp2 ((i, (⟨inp.take (inp.length - inp2.length)⟩ : String)) :: caps2))
      caps
  | .eos, inp, k, caps =>
    match inp with
    | [] => k [] caps
    | _ :: _ => none

/-- `re.search` at successive start positions (leftmost match wins). -/
def rxSearchGo (r : Rx) : List Char → Option Caps
  | [] => matchRx r [] (fun _ caps => some caps) []
  | c :: t =>
    match matchRx r (c :: t) (fun _ caps => some caps) [] with
    | some caps => some caps
    | none => rxSearchGo r t

/-- `pattern.search(s)`: `some` captures on a match, `none` otherwise. -/
def rxSearch (r : Rx) (s : String) : Option Caps := rxSearchGo r s.data

/-- `match.group(i)` (our patterns' groups always participate on success). -/
def rxGroup (caps : Caps) (i : Nat) : String :=
  match caps.find? (fun p => p.1 == i) with
  | some p => p.2
  | none => ""

/-- Ordered alternation of literal words. -/
def rlits : List String → Rx
  | [] => .fail
  | [w] => .lit w
  | w :: rest => .alt (.lit w) (rlits rest)

/-- Concatenation of a pattern list. -/
def rseq (l : List Rx) : Rx := l.foldr Rx.seq .eps

/-- `\w` (ASCII: letters, digits, underscore). -/
def wordCh (c : Char) : Bool :=
  (97 ≤ c.toNat ∧ c.toNat ≤ 122) || (65 ≤ c.toNat ∧ c.toNat ≤ 90) ||
  (48 ≤ c.toNat ∧ c.toNat ≤ 57) || c.toNat = 95

/-- `\s`. -/
def spCh (c : Char) : Bool := pySpace c

/-- `\d`. -/
def digitCh (c : Char) : Bool := 48 ≤ c.toNat ∧ c.toNat ≤ 57

/-- The class `[\w\s']`. -/
def wsqCh (c : Char) : Bool := wordCh c || spCh c || c.toNat = 39

/-- The class `[a-zA-Z'\s]`. -/
def alphaSpCh (c : Char) : Bool :=
  (97 ≤ c.toNat ∧ c.toNat ≤ 122) || (65 ≤ c.toNat ∧ c.toNat ≤ 90) ||
  spCh c || c.toNat = 39

/-- `\b word \b` search (`word` starts and ends with word characters in all
the source's uses): an occurrence whose neighbours are not word
characters. -/
def wordAt (w : List Char) (pre : Option Char) (l : List Char) : Bool :=
  w.isPrefixOf l &&
  (match pre with | none => true | some c => !wordCh c) &&
  (match l.drop w.length with | [] => true | c :: _ => !wordCh c)

def containsWordGo (w : List Char) (pre : Option Char) : List Char → Bool
  | [] => wordAt w pre []
  | c :: t => wordAt w pre (c :: t) || containsWordGo w (some c) t

/-- `re.search(r'\b' + w + r'\b', s)` as a Boolean. -/
def containsWord (w s : String) : Bool := containsWordGo w.data none s.data

/-- `int(...)` on a digit string. -/
def digitsToNat (s : String) : Nat :=
  s.data.foldl (fun acc c => 10 * acc + (c.toNat - 48)) 0

/-! ## The compiled patterns of the source (`CHAMPION_PATTERNS` …) -/

def chmP1 : Rx := rseq [rlits ["who", "what", "which", "whos", "who's"], .lit " ",
  rlits ["is", "are"], .lit " ", .opt (.lit "the"), .star spCh,
  .grp 1 (.plus alphaSpCh), .star spCh,
  rlits ["champion", "champ", "title", "belt"], .opt (.lit "ion"), .opt (.lit "holder")]

def chmP2 : Rx := rseq [.grp 1 (.plus alphaSpCh), .star spCh,
  rlits ["champion", "champ", "title", "belt"], .opt (.lit "ion"), .opt (.lit "holder")]

def CHAMPION_PATTERNS : List Rx := [chmP1, chmP2]

def rnkP1 : Rx := rseq [.grp 1 (.plus alphaSpCh), .star spCh, rlits ["ranking", "rankings"]]

def rnkP2 : Rx := rseq [rlits ["ranking", "rankings"],
  .opt (.seq (.plus spCh) (.lit "for")), .plus spCh, .grp 1 (.plus alphaSpCh)]

def RANKING_PATTERNS : List Rx := [rnkP1, rnkP2]

def recP1 : Rx := rseq [rlits ["record", "stats"], .lit " of ", .grp 1 (.plus alphaSpCh)]

def recP2 : Rx := rseq [.grp 1 (.plus alphaSpCh), .opt (.lit "'s"), .lit " ",
  rlits ["record", "stats"]]

def recP3 : Rx := rseq [rlits ["what is", "how good is"], .lit " ",
  .grp 1 (.plus alphaSpCh), .opt (.lit "'s"), .lit " record"]

def RECORD_PATTERNS : List Rx := [recP1, recP2, recP3]

def ftrP1 : Rx := rseq [rlits ["who", "what", "which", "tell me about", "info on",
  "information about"], .plus spCh, .opt (rlits ["is", "are", "on", "about"]),
  .star spCh, .grp 1 (.plus alphaSpCh), .alt (.lit "?") .eos]

def ftrP2 : Rx := rseq [.grp 1 (.plus alphaSpCh), .opt (.lit "'s"), .star spCh,
  rlits ["record", "stats", "statistics", "profile", "information", "details"]]

def FIGHTER_PATTERNS : List Rx := [ftrP1, ftrP2]

def p4pP1 : Rx := rseq [.opt (.alt (.seq (.lit "men") (.opt (.lit "'s"))) (.lit "male")),
  .star spCh, .lit "pound", .star spCh, rlits ["for", "4"], .star spCh, .lit "pound",
  .star spCh, .opt (rlits ["ranking", "rankings"])]

def p4pP2 : Rx := rseq [.lit "p4p", .star spCh, .opt (rlits ["ranking", "rankings"])]

def p4pP3 : Rx := rseq [.lit "pound", .star spCh, rlits ["for", "4"], .star spCh,
  .lit "pound", .star spCh, .opt (rlits ["ranking", "rankings"])]

def P4P_PATTERNS : List Rx := [p4pP1, p4pP2, p4pP3]

def cmpP1 : Rx := rseq [.opt (rlits ["who is ", "who's ", "which is ", "which one is "]),
  .grp 1 (rlits ["taller", "shorter", "heavier", "lighter", "bigger", "stronger", "better"]),
  rlits [" ", ","], .opt (.lit "between "), .grp 2 (.plus wsqCh), .lit " ",
  .alt (.lit "or") (.alt (.lit "and") (.seq (.lit "vs") (.opt (.lit ".")))),
  .lit " ", .grp 3 (.plus wsqCh)]

def cmpP2 : Rx := rseq [rlits ["compare", "vs", "versus"], .lit " ",
  .grp 1 (.plus wsqCh), .lit " ", .alt (.lit "and") (.seq (.lit "vs") (.opt (.lit "."))),
  .lit " ", .grp 2 (.plus wsqCh)]

def cmpP3 : Rx := rseq [.grp 1 (.plus wsqCh), .lit " ",
  .alt (.seq (.lit "vs") (.opt (.lit "."))) (.alt (.lit "versus")
    (.alt (.lit "compared to") (.lit "against"))),
  .lit " ", .grp 2 (.plus wsqCh)]

def wtP1 : Rx := rseq [.grp 1 (.plus digitCh), .star spCh, rlits ["pound", "lb", "lbs"]]

def wtP2 : Rx := rseq [.grp 1 (.plus digitCh), .star spCh, .lit "kg"]

/-- The inline `fighter_patterns` of the attribute stage of
`parse_query_intent`. -/
def attrP1 : Rx := rseq [rlits ["height", "weight", "reach", "leg reach"], .lit " of ",
  .grp 1 (.plus alphaSpCh)]

def attrP2 : Rx := rseq [.grp 1 (.plus alphaSpCh), .opt (.lit "'s"), .star spCh,
  rlits ["height", "weight", "reach", "leg reach"]]

/-- `(\d+)\s*(?:pound|lb|lbs|kg|kilo)` of `parse_open_query`. -/
def openWeightRx : Rx := rseq [.grp 1 (.plus digitCh), .star spCh,
  rlits ["pound", "lb", "lbs", "kg", "kilo"]]

/-! ## Static tables of the source (in source order) -/

def CHAMPION_KEYWORDS : List String := ["champion", "champ", "title", "belt", "titleholder"]

def RANKING_KEYWORDS : List String := ["ranking", "rankings", "top", "best fighter", "best fighters"]

def PHYSICAL_ATTRIBUTES : List String := ["height", "weight", "reach", "leg reach",
  "tallest", "shortest", "longest", "heaviest", "lightest"]

def FIGHTING_STYLES : List String := ["wrestler", "boxing", "bjj", "jiu jitsu",
  "muay thai", "karate", "kickbox", "sambo", "wrestler", "kickboxing", "boxing", "judo"]

def FIGHTER_NICKNAMES : List (String × String) := [
  ("the spider", "anderson silva"),
  ("gsp", "georges st pierre"),
  ("the eagle", "khabib nurmagomedov"),
  ("mighty mouse", "demetrious johnson"),
  ("bones", "jon jones"),
  ("notorious", "conor mcgregor"),
  ("stylebender", "israel adesanya"),
  ("the last stylebender", "israel adesanya"),
  ("poatan", "alex pereira"),
  ("reaper", "robert whittaker"),
  ("lionheart", "anthony smith"),
  ("borz", "khamzat chimaev"),
  ("el cucuy", "tony ferguson"),
  ("thug", "rose namajunas"),
  ("thug rose", "rose namajunas"),
  ("blessed", "max holloway"),
  ("the diamond", "dustin poirier")]

def STANDALONE_LAST_NAMES : List (String × String) := [
  ("cejudo", "henry-cejudo"),
  ("jones", "jon-jones"),
  ("adesanya", "israel-adesanya"),
  ("mcgregor", "conor-mcgregor"),
  ("poirier", "dustin-poirier"),
  ("holloway", "max-holloway"),
  ("oliveira", "charles-oliveira"),
  ("elliott", "tim-elliott"),
  ("pantoja", "alexandre-pantoja"),
  ("moreno", "brandon-moreno"),
  ("makhachev", "islam-makhachev"),
  ("volkanovski", "alexander-volkanovski"),
  ("pereira", "alex-pereira"),
  ("whittaker", "robert-whittaker"),
  ("chimaev", "khamzat-chimaev"),
  ("ngannou", "francis-ngannou"),
  ("cormier", "daniel-cormier"),
  ("stipe", "stipe-miocic"),
  ("miocic", "stipe-miocic"),
  ("usman", "kamaru-usman"),
  ("masvidal", "jorge-masvidal"),
  ("namajunas", "rose-namajunas"),
  ("shevchenko", "valentina-shevchenko")]

/-- A fighter-detail record (a JSON object of string fields, as the upstream
API and the retired-fighter table deliver them). -/
def FighterDict := List (String × String)
deriving instance DecidableEq for FighterDict

/-- The retired-fighter registry, keyed by lowercase full name.  The values
are opaque record payloads; the embedded core reads only the keys, the
`name` and the `nickname` fields. -/
def RETIRED_FIGHTERS : List (String × FighterDict) := [
  ("anderson silva", [("name", "Anderson Silva"), ("nickname", "The Spider"),
    ("category", "Middleweight Division (Former)"), ("wins", "34"), ("losses", "11"),
    ("draws", "0"), ("status", "Retired"), ("height", "74.00"), ("weight", "185.00"),
    ("reach", "77.50"), ("legReach", "42.00")]),
  ("georges st pierre", [("name", "Georges St-Pierre"), ("nickname", "GSP"),
    ("category", "Welterweight Division (Former)"), ("wins", "26"), ("losses", "2"),
    ("draws", "0"), ("status", "Retired"), ("height", "70.00"), ("weight", "170.00"),
    ("reach", "76.00"), ("legReach", "41.00")]),
  ("khabib nurmagomedov", [("name", "Khabib Nurmagomedov"), ("nickname", "The Eagle"),
    ("category", "Lightweight Division (Former)"), ("wins", "29"), ("losses", "0"),
    ("draws", "0"), ("status", "Retired"), ("height", "70.00"), ("weight", "155.00"),
    ("reach", "70.00"), ("legReach", "40.00")]),
  ("demetrious johnson", [("name", "Demetrious Johnson"), ("nickname", "Mighty Mouse"),
    ("category", "Flyweight Division (Former)"), ("wins", "30"), ("losses", "4"),
    ("draws", "1"), ("status", "Active in ONE Championship"), ("height", "64.00"),
    ("weight", "125.00"), ("reach", "66.00"), ("legReach", "32.00")])]

def WEIGHT_CLASS_MAPPING : List (String × String) := [
  ("flyweight", "flyweight"),
  ("bantamweight", "bantamweight"),
  ("featherweight", "featherweight"),
  ("lightweight", "lightweight"),
  ("welterweight", "welterweight"),
  ("middleweight", "middleweight"),
  ("light heavyweight", "light-heavyweight"),
  ("light-heavyweight", "light-heavyweight"),
  ("heavyweight", "heavyweight"),
  ("125", "flyweight"),
  ("135", "bantamweight"),
  ("145", "featherweight"),
  ("155", "lightweight"),
  ("170", "welterweight"),
  ("185", "middleweight"),
  ("205", "light-heavyweight"),
  ("265", "heavyweight"),
  ("women's strawweight", "womens-strawweight"),
  ("womens strawweight", "womens-strawweight"),
  ("women's flyweight", "womens-flyweight"),
  ("womens flyweight", "womens-flyweight"),
  ("women's bantamweight", "womens-bantamweight"),
  ("womens bantamweight", "womens-bantamweight"),
  ("fly", "flyweight"),
  ("bantam", "bantamweight"),
  ("feather", "featherweight"),
  ("light", "lightweight"),
  ("welter", "welterweight"),
  ("middle", "middleweight"),
  ("lhw", "light-heavyweight"),
  ("hw", "heavyweight"),
  ("pound-for-pound", "mens-pound-for-pound-top-rank"),
  ("pound for pound", "mens-pound-for-pound-top-rank"),
  ("p4p", "mens-pound-for-pound-top-rank"),
  ("men's p4p", "mens-pound-for-pound-top-rank"),
  ("mens p4p", "mens-pound-for-pound-top-rank"),
  ("women's p4p", "womens-pound-for-pound-top-rank"),
  ("womens p4p", "womens-pound-for-pound-top-rank")]

/-! ## Application state

The process-wide mutable state the core reads and writes: the resolver's
memoized alias map (`resolve_fighter_name.name_map`, initialised from the
three static tables as the source's lazy first-call initialiser does), the
roster and rankings caches (`CACHE["fighters"]` / `CACHE["rankings"]`,
`none` when the upstream fetch failed and nothing is resident), and the
memoized division mapping (`CACHE["division_mapping"]`).  Network loads
(`load_fighters_data` / `load_rankings_data`) are modelled as no-ops over
this resident state. -/

structure Fighter where
  id : String
  name : String
  nickname : String
  fightingStyle : String
deriving DecidableEq, Repr

structure DivisionEntry where
  categoryName : String
  id : String
deriving DecidableEq, Repr

structure AppState where
  nameMap : List (String × String)
  fighters : Option (List Fighter)
  rankings : Option (List DivisionEntry)
  divisionMapping : Option (List (String × String))
deriving DecidableEq, Repr

/-- The lazily-built initial `resolve_fighter_name.name_map`: nicknames,
standalone last names, then retired ids, in source order. -/
def initNameMap : List (String × String) :=
  let m := FIGHTER_NICKNAMES.foldl (fun m p => dinsert m p.1 p.2) []
  let m := STANDALONE_LAST_NAMES.foldl (fun m p => dinsert m p.1 p.2) m
  RETIRED_FIGHTERS.foldl (fun m p => dinsert m p.1 ("retired:" ++ p.1)) m

/-- A fresh process state with the given resident roster and rankings. -/
def initState (fighters : Option (List Fighter)) (rankings : Option (List DivisionEntry)) :
    AppState :=
  ⟨initNameMap, fighters, rankings, none⟩

/-! ## `build_division_mapping` and the division normaliser -/

/-- The `(key, id)` pairs one rankings division contributes, in the order
the source inserts them: the lowercased `categoryName`, its no-space
variant, and (when the name contains "weight") the "weight"-stripped base
name.  Divisions with an empty name or id contribute nothing. -/
def divPairs (d : DivisionEntry) : List (String × String) :=
  let categoryName := lowStr d.categoryName
  if categoryName ≠ "" ∧ d.id ≠ "" then
    [(categoryName, d.id), (replStr categoryName " " "", d.id)] ++
    (if subStr "weight" categoryName then
      [(pyStrip (replStr categoryName "weight" ""), d.id)]
    else [])
  else []

/-- `build_division_mapping`: the static table extended by the resident
rankings divisions, memoized in the state. -/
def build_division_mapping (st : AppState) : List (String × String) × AppState :=
  match st.divisionMapping with
  | some m => (m, st)
  | none =>
    let base := WEIGHT_CLASS_MAPPING.foldl (fun m p => dinsert m p.1 p.2) []
    let m := match st.rankings with
      | some rankingsData =>
        rankingsData.foldl (fun m d => (divPairs d).foldl (fun m p => dinsert m p.1 p.2) m) base
      | none => base
    (m, { st with divisionMapping := some m })

/-- `normalize_division_name`. -/
def normalize_division_name (divisionName : String) (st : AppState) :
    Option String × AppState :=
  if divisionName = "" then (none, st)
  else
    let built := build_division_mapping st
    let m := built.1
    let st1 := built.2
    if subStr "pound" (lowStr divisionName) || subStr "p4p" (lowStr divisionName) then
      if subStr "women" (lowStr divisionName) || subStr "female" (lowStr divisionName) then
        (some "womens-pound-for-pound-top-rank", st1)
      else
        (some "mens-pound-for-pound-top-rank", st1)
    else
      let searchName := pyStrip (lowStr divisionName)
      if subStr "light" searchName ∧ subStr "heavy" searchName then
        (some "light-heavyweight", st1)
      else
        match dlookup m searchName with
        | some divId => (some divId, st1)
        | none =>
          match m.findSome? (fun p =>
              if subStr searchName p.1 || subStr p.1 searchName then some p.2 else none) with
          | some divId => (some divId, st1)
          | none =>
            match closeMatch1 searchName.data (m.map (fun p => p.1)) ⟨7, 10⟩ with
            | some key => (dlookup m key, st1)
            | none => (none, st1)

/-- The upper-bound weight thresholds of `identify_weight_class`. -/
def poundClass (n : Nat) : String :=
  if n ≤ 125 then "flyweight"
  else if n ≤ 135 then "bantamweight"
  else if n ≤ 145 then "featherweight"
  else if n ≤ 155 then "lightweight"
  else if n ≤ 170 then "welterweight"
  else if n ≤ 185 then "middleweight"
  else if n ≤ 205 then "light-heavyweight"
  else "heavyweight"

/-- `int(weight_num * 2.20462)` for a kilogram mention (exact rational,
truncated). -/
def kgToLbs (n : Nat) : Nat := n * 220462 / 100000

/-- `identify_weight_class`. -/
def identify_weight_class (weightMention : String) (st : AppState) :
    Option String × AppState :=
  if weightMention = "" then (none, st)
  else
    let w := pyStrip (lowStr weightMention)
    let built := build_division_mapping st
    let m := built.1
    let st1 := built.2
    match dlookup m w with
    | some divId => (some divId, st1)
    | none =>
      match rxSearch wtP1 w with
      | some caps => (some (poundClass (digitsToNat (rxGroup caps 1))), st1)
      | none =>
        match rxSearch wtP2 w with
        | some caps => (some (poundClass (kgToLbs (digitsToNat (rxGroup caps 1)))), st1)
        | none =>
          match closeMatch1 w.data (m.map (fun p => p.1)) ⟨3, 5⟩ with
          | some key => (dlookup m key, st1)
          | none => (none, st1)

/-! ## `resolve_fighter_name` -/

/-- Normalisation of the query: `name.lower().strip()`. -/
def normQuery (s : String) : String := pyStrip (lowStr s)

/-- The nickname-rewrite loop: the first static nickname contained in the
query replaces the whole query by the canonical name. -/
def nicknameRewrite (nameLower : String) : String :=
  match FIGHTER_NICKNAMES.find? (fun p => subStr p.1 nameLower) with
  | some p => p.2
  | none => nameLower

/-- The retired-fighter registry scan: substring containment either way. -/
def retiredScan (nameLower : String) : Option String :=
  RETIRED_FIGHTERS.findSome? (fun p =>
    if subStr p.1 nameLower || subStr nameLower p.1 then some ("retired:" ++ p.1)
    else none)

/-- The style-strip step: the first mentioned fighting style is removed
from the query (`name_lower.replace(style, "").strip()`). -/
def stripStyle (nameLower : String) : Option String × String :=
  match FIGHTING_STYLES.find? (fun sty => subStr sty nameLower) with
  | some sty => (some sty, pyStrip (replStr nameLower sty ""))
  | none => (none, nameLower)

/-- The bulk-populate size guard
`len(FIGHTER_NICKNAMES) + len(STANDALONE_LAST_NAMES) + len(RETIRED_FIGHTERS) + 10`. -/
def bulkThreshold : Nat :=
  FIGHTER_NICKNAMES.length + STANDALONE_LAST_NAMES.length + RETIRED_FIGHTERS.length + 10

/-- The multi-signal fuzzy score of one fighter:
`max(name_score, nickname_score) + style_score * 0.5`. -/
def combinedScore (nameLower : String) (mentionedStyle : Option String) (f : Fighter) : Frac :=
  let fighterName := lowStr f.name
  let nickname := lowStr f.nickname
  let style := lowStr f.fightingStyle
  let nameScore := ratioScore nameLower.data fighterName.data
  let nicknameScore : Frac :=
    if nickname ≠ "" ∧ (subStr nickname nameLower || subStr nameLower nickname) then ⟨4, 5⟩
    else ⟨0, 1⟩
  let styleScore : Frac :=
    match mentionedStyle with
    | some ms => if subStr ms style then ⟨3, 10⟩ else ⟨0, 1⟩
    | none => ⟨0, 1⟩
  (Frac.maxF nameScore nicknameScore).add (styleScore.mul ⟨1, 2⟩)

/-- The token branch: the first name part equal to the query, or (for a
query longer than 3 characters) containing it. -/
def tokenMatch (nameLower : String) (f : Fighter) : Option String :=
  (pyWords (lowStr f.name)).find? (fun part =>
    nameLower == part || (decide (3 < nameLower.length) && subStr nameLower part))

/-- The first entry of the score-descending stable sort: the earliest
entry with the strictly greatest score (`matches.sort(key=score,
reverse=True); matches[0]`, Python's sort being stable). -/
def pickBest (l : List (String × Frac)) : Option (String × Frac) :=
  l.foldl (fun best e =>
    match best with
    | none => some e
    | some b => if Frac.ltb b.2 e.2 then some e else some b) none

/-- The fuzzy stage of `resolve_fighter_name` (lines 806-849): per fighter,
a candidate above the 0.6 combined-score threshold, and a token-branch
candidate (appended after it, with the token similarity as its score and
no threshold), ranked by score. -/
def fuzzyStage (nameLower : String) (mentionedStyle : Option String)
    (fightersData : List Fighter) : Option String :=
  let matchList := fightersData.flatMap (fun f =>
    let cs := combinedScore nameLower mentionedStyle f
    (if Frac.ltb ⟨3, 5⟩ cs then [(f.id, cs)] else []) ++
    (match tokenMatch nameLower f with
     | some part => [(f.id, ratioScore nameLower.data part.data)]
     | none => []))
  match pickBest matchList with
  | some b => some b.1
  | none => none

/-- The result of `resolve_fighter_name`: the resolved id (or `none`), the
updated state, and a ghost flag recording whether the loaded roster was
scanned (the exact-match / fuzzy stages ran). -/
structure ResolveOut where
  result : Option String
  st : AppState
  scanned : Bool
deriving DecidableEq, Repr

/-- The bulk-populate step: when the roster is resident (and nonempty) and
the map size betrays that it has not been bulk-populated yet, every loaded
fighter's lowercase name is added to the alias map. -/
def bulkPopulate (st : AppState) : List (String × String) :=
  match st.fighters with
  | some fightersData =>
    if fightersData ≠ [] ∧ st.nameMap.length < bulkThreshold then
      fightersData.foldl (fun m f =>
        if lowStr f.name ≠ "" then dinsert m (lowStr f.name) f.id else m) st.nameMap
    else st.nameMap
  | none => st.nameMap

/-- `resolve_fighter_name`. -/
def resolve_fighter_name (name : String) (st : AppState) : ResolveOut :=
  if name = "" then ⟨none, st, false⟩
  else
    let nameLower := nicknameRewrite (normQuery name)
    match dlookup st.nameMap nameLower with
    | some v => ⟨some v, st, false⟩
    | none =>
      match retiredScan nameLower with
      | some retiredId => ⟨some retiredId, st, false⟩
      | none =>
        let map1 := bulkPopulate st
        match st.fighters with
        | none => ⟨none, { st with nameMap := map1 }, false⟩
        | some [] => ⟨none, { st with nameMap := map1 }, false⟩
        | some fightersData =>
          let stripped := stripStyle nameLower
          let mentionedStyle := stripped.1
          let nameLower2 := stripped.2
          match fightersData.find? (fun f => lowStr f.name == nameLower2) with
          | some f => ⟨some f.id, { st with nameMap := dinsert map1 nameLower2 f.id }, true⟩
          | none =>
            match fuzzyStage nameLower2 mentionedStyle fightersData with
            | some bestId => ⟨some bestId, { st with nameMap := dinsert map1 nameLower2 bestId }, true⟩
            | none => ⟨none, { st with nameMap := map1 }, true⟩

/-! ## The intent classifier -/

structure AttrData where
  attrName : String
  comparison : Option String
deriving DecidableEq, Repr

/-- An intent result: the `"intent"` tag plus the entity fields the
handlers read (a Python dict in the source). -/
structure QueryResult where
  intent : String
  fighterId : Option String := none
  fighter1Id : Option String := none
  fighter2Id : Option String := none
  divisionId : Option String := none
  attrName : Option String := none
  attributeData : Option AttrData := none
deriving DecidableEq, Repr

/-- `is_physical_attribute_query`. -/
def is_physical_attribute_query (message : String) : Bool × Option AttrData :=
  let messageLower := lowStr message
  if ¬ PHYSICAL_ATTRIBUTES.any (fun a => subStr a messageLower) then (false, none)
  else
    let comparisonTerms := ["tallest", "shortest", "longest", "heaviest", "lightest",
      "biggest", "smallest"]
    match comparisonTerms.findSome? (fun term =>
      if subStr term messageLower then
        let attr0 : Option String :=
          if term = "tallest" ∨ term = "shortest" then some "height"
          else if term = "longest" then
            (if subStr "leg" messageLower || subStr "kick" messageLower then some "legReach"
             else some "reach")
          else if term = "heaviest" ∨ term = "lightest" then some "weight"
          else if term = "biggest" ∨ term = "smallest" then
            (if subStr "leg" messageLower || subStr "kick" messageLower then some "legReach"
             else if subStr "arm" messageLower then some "reach"
             else some "height")
          else none
        match attr0 with
        | some a => some (a, term)
        | none => none
      else none) with
    | some p => (true, some ⟨p.1, some p.2⟩)
    | none =>
      match ["height", "weight", "reach"].find? (fun a => subStr a messageLower) with
      | some a => (true, some ⟨a, none⟩)
      | none =>
        if subStr "leg reach" messageLower || subStr "leg-reach" messageLower then
          (true, some ⟨"legReach", none⟩)
        else (false, none)

/-- The comparison-verb → attribute inference of `parse_fighter_comparison`. -/
def comparisonAttribute (comparison : Option String) (messageLower : String) :
    Option String :=
  let fromVerb : Option String :=
    match comparison with
    | some c =>
      if c = "taller" ∨ c = "shorter" then some "height"
      else if c = "heavier" ∨ c = "lighter" then some "weight"
      else if c = "bigger" then some "height"
      else if c = "stronger" ∨ c = "better" then some "record"
      else none
    | none => none
  match fromVerb with
  | some a => some a
  | none =>
    if subStr "taller" messageLower || subStr "shorter" messageLower ||
       subStr "height" messageLower then some "height"
    else if subStr "heavier" messageLower || subStr "lighter" messageLower ||
       subStr "weight" messageLower then some "weight"
    else if subStr "reach" messageLower || subStr "longer arms" messageLower then some "reach"
    else if subStr "leg reach" messageLower || subStr "longer legs" messageLower then
      some "legReach"
    else none

/-- One matched comparison pattern: resolve both names; `none` (fall
through to the next pattern) unless both resolve. -/
def tryComparisonMatch (messageLower : String) (comparison : Option String)
    (name1 name2 : String) (st : AppState) : Option QueryResult × AppState :=
  let r1 := resolve_fighter_name name1 st
  let r2 := resolve_fighter_name name2 r1.st
  match r1.result, r2.result with
  | some f1, some f2 =>
    (some { intent := "fighter_comparison", fighter1Id := some f1, fighter2Id := some f2,
            attrName := comparisonAttribute comparison messageLower }, r2.st)
  | _, _ => (none, r2.st)

/-- `parse_fighter_comparison`: the three `COMPARISON_PATTERNS` in order;
a pattern that matches but whose names do not both resolve falls through
to the next pattern. -/
def parse_fighter_comparison (message : String) (st : AppState) :
    Option QueryResult × AppState :=
  let messageLower := pyStrip (lowStr message)
  let afterP1 : Option QueryResult × AppState :=
    match rxSearch cmpP1 messageLower with
    | some caps =>
      tryComparisonMatch messageLower (some (rxGroup caps 1)) (rxGroup caps 2)
        (rxGroup caps 3) st
    | none => (none, st)
  match afterP1 with
  | (some r, st1) => (some r, st1)
  | (none, st1) =>
    let afterP2 : Option QueryResult × AppState :=
      match rxSearch cmpP2 messageLower with
      | some caps =>
        tryComparisonMatch messageLower none (rxGroup caps 1) (rxGroup caps 2) st1
      | none => (none, st1)
    match afterP2 with
    | (some r, st2) => (some r, st2)
    | (none, st2) =>
      match rxSearch cmpP3 messageLower with
      | some caps =>
        tryComparisonMatch messageLower none (rxGroup caps 1) (rxGroup caps 2) st2
      | none => (none, st2)

/-- The attribute-extreme phrase table of `parse_open_query`, in source
order. -/
def attributeExtremes : List (String × AttrData) := [
  ("tallest", ⟨"height", some "tallest"⟩),
  ("shortest", ⟨"height", some "shortest"⟩),
  ("heaviest", ⟨"weight", some "heaviest"⟩),
  ("lightest", ⟨"weight", some "lightest"⟩),
  ("longest reach", ⟨"reach", some "longest"⟩),
  ("longest arms", ⟨"reach", some "longest"⟩),
  ("longest legs", ⟨"legReach", some "longest"⟩)]

/-- The tail of `parse_open_query` after the numeric-weight branch: the
unconditional weight-class check, the attribute-extreme table, the generic
MMA vocabulary, and the `unknown` fallback. -/
def parseOpenRest (messageLower : String) (st : AppState) : QueryResult × AppState :=
  let idw := identify_weight_class messageLower st
  match idw with
  | (some divisionId, st1) =>
    if ["champ", "champion", "title", "belt"].any (fun w => containsWord w messageLower) then
      ({ intent := "division_champion", divisionId := some divisionId }, st1)
    else
      ({ intent := "division_rankings", divisionId := some divisionId }, st1)
  | (none, st1) =>
    match attributeExtremes.find? (fun p => containsWord p.1 messageLower) with
    | some p => ({ intent := "physical_comparison", attributeData := some p.2 }, st1)
    | none =>
      if ["fight", "fighter", "ufc", "mma", "octagon", "knockout", "submission"].any
          (fun w => subStr w messageLower) then
        ({ intent := "general_mma_question" }, st1)
      else ({ intent := "unknown" }, st1)

/-- `parse_open_query`. -/
def parse_open_query (message : String) (st : AppState) : QueryResult × AppState :=
  let messageLower := pyStrip (lowStr message)
  if ["best", "top", "greatest", "goat"].any (fun w => containsWord w messageLower) then
    if ["woman", "women", "female"].any (fun w => containsWord w messageLower) then
      ({ intent := "division_rankings", divisionId := some "womens-pound-for-pound-top-rank" }, st)
    else
      ({ intent := "division_rankings", divisionId := some "mens-pound-for-pound-top-rank" }, st)
  else
    match rxSearch openWeightRx messageLower with
    | some _ =>
      let idw := identify_weight_class messageLower st
      match idw with
      | (some divisionId, st1) =>
        if ["champ", "champion", "title", "belt"].any (fun w => containsWord w messageLower) then
          ({ intent := "division_champion", divisionId := some divisionId }, st1)
        else
          ({ intent := "division_rankings", divisionId := some divisionId }, st1)
      | (none, st1) => parseOpenRest messageLower st1
    | none => parseOpenRest messageLower st

/-- A pattern cascade that resolves group 1 as a fighter name and falls
through (to the next pattern) when the name does not resolve (the record,
attribute and fighter-info stages of `parse_query_intent`). -/
def tryPatternsResolve (pats : List Rx) (messageLower : String) (st : AppState)
    (mk : String → QueryResult) : Option QueryResult × AppState :=
  match pats with
  | [] => (none, st)
  | p :: rest =>
    match rxSearch p messageLower with
    | some caps =>
      let r := resolve_fighter_name (pyStrip (rxGroup caps 1)) st
      match r.result with
      | some fighterId => (some (mk fighterId), r.st)
      | none => tryPatternsResolve rest messageLower r.st mk
    | none => tryPatternsResolve rest messageLower st mk

/-- A pattern cascade that normalises group 1 as a division and falls
through when normalisation fails (the champion and rankings stages). -/
def tryPatternsDivision (pats : List Rx) (messageLower : String) (st : AppState)
    (intentTag : String) : Option QueryResult × AppState :=
  match pats with
  | [] => (none, st)
  | p :: rest =>
    match rxSearch p messageLower with
    | some caps =>
      let nd := normalize_division_name (pyStrip (rxGroup caps 1)) st
      match nd with
      | (some divisionId, st1) =>
        (some { intent := intentTag, divisionId := some divisionId }, st1)
      | (none, st1) => tryPatternsDivision rest messageLower st1 intentTag
    | none => tryPatternsDivision rest messageLower st intentTag

/-- The rankings/champion keyword stages: scan the resident rankings for a
division whose lowercased `categoryName` occurs in the message. -/
def scanDivisions (messageLower : String) (st : AppState) : Option String :=
  match st.rankings with
  | some rankingsData =>
    rankingsData.findSome? (fun d =>
      if subStr (lowStr d.categoryName) messageLower then some d.id else none)
  | none => none

/-- The single-word stage of `parse_query_intent` (`"Cejudo?"`): one
word ending in a question mark, longer than 3 characters, resolved as a
fighter name. -/
def single_word_stage (messageLower : String) (st : AppState) :
    Option QueryResult × AppState :=
  if (pyWords messageLower).length = 1 ∧ endsWithChar messageLower '?' then
    let fighterName := pyStrip (rstripChar messageLower '?')
    if 3 < fighterName.length then
      let r := resolve_fighter_name fighterName st
      match r.result with
      | some fid => (some { intent := "fighter_info", fighterId := some fid }, r.st)
      | none => (none, r.st)
    else (none, st)
  else (none, st)

/-- The attribute-of-named-fighter stage of `parse_query_intent`. -/
def attr_fighter_stage (messageLower : String) (isPhysical : Bool)
    (attributeData : Option AttrData) (st : AppState) :
    Option QueryResult × AppState :=
  if isPhysical ∧ attributeData.isSome then
    tryPatternsResolve [attrP1, attrP2] messageLower st
      (fun fid =>
        { intent := "fighter_attribute", fighterId := some fid,
          attrName := attributeData.map (fun ad => ad.attrName) })
  else (none, st)

/-- `parse_query_intent`: the fixed-priority cascade. -/
def parse_query_intent (message : String) (st : AppState) : QueryResult × AppState :=
  if message = "" then ({ intent := "unknown" }, st)
  else
    let messageLower := pyStrip (lowStr message)
    match parse_fighter_comparison messageLower st with
    | (some r, st1) => (r, st1)
    | (none, st1) =>
      match tryPatternsResolve RECORD_PATTERNS messageLower st1
          (fun fid => { intent := "fighter_info", fighterId := some fid }) with
      | (some r, st2) => (r, st2)
      | (none, st2) =>
        match single_word_stage messageLower st2 with
        | (some r, st3) => (r, st3)
        | (none, st3) =>
          let physical := is_physical_attribute_query messageLower
          match physical with
          | (isPhysical, attributeData) =>
            if isPhysical ∧ (attributeData.bind (fun ad => ad.comparison)).isSome then
              ({ intent := "physical_comparison", attributeData := attributeData }, st3)
            else if P4P_PATTERNS.any (fun p => (rxSearch p messageLower).isSome) then
              if subStr "women" messageLower || subStr "female" messageLower then
                ({ intent := "division_rankings",
                   divisionId := some "womens-pound-for-pound-top-rank" }, st3)
              else
                ({ intent := "division_rankings",
                   divisionId := some "mens-pound-for-pound-top-rank" }, st3)
            else
              match tryPatternsDivision CHAMPION_PATTERNS messageLower st3 "division_champion" with
              | (some r, st4) => (r, st4)
              | (none, st4) =>
                match tryPatternsDivision RANKING_PATTERNS messageLower st4 "division_rankings" with
                | (some r, st5) => (r, st5)
                | (none, st5) =>
                  match attr_fighter_stage messageLower isPhysical attributeData st5 with
                  | (some r, st6) => (r, st6)
                  | (none, st6) =>
                    match tryPatternsResolve FIGHTER_PATTERNS messageLower st6
                        (fun fid => { intent := "fighter_info", fighterId := some fid }) with
                    | (some r, st7) => (r, st7)
                    | (none, st7) =>
                      if RANKING_KEYWORDS.any (fun k => subStr k messageLower) then
                        match scanDivisions messageLower st7 with
                        | some divisionId =>
                          ({ intent := "division_rankings", divisionId := some divisionId }, st7)
                        | none => ({ intent := "all_rankings" }, st7)
                      else if CHAMPION_KEYWORDS.any (fun k => subStr k messageLower) then
                        match scanDivisions messageLower st7 with
                        | some divisionId =>
                          ({ intent := "division_champion", divisionId := some divisionId }, st7)
                        | none => ({ intent := "all_champions" }, st7)
                      else
                        match identify_weight_class messageLower st7 with
                        | (some divisionId, st8) =>
                          if CHAMPION_KEYWORDS.any (fun w => subStr w messageLower) then
                            ({ intent := "division_champion", divisionId := some divisionId }, st8)
                          else
                            ({ intent := "division_rankings", divisionId := some divisionId }, st8)
                        | (none, st8) =>
                          match parse_open_query messageLower st8 with
                          | (openResult, st9) =>
                            if openResult.intent ≠ "unknown" then (openResult, st9)
                            else
                              let r := resolve_fighter_name messageLower st9
                              match r.result with
                              | some fid =>
                                ({ intent := "fighter_info", fighterId := some fid }, r.st)
                              | none =>
                                match normalize_division_name messageLower r.st with
                                | (some divisionId, st10) =>
                                  ({ intent := "division_info", divisionId := some divisionId }, st10)
                                | (none, st10) => ({ intent := "unknown" }, st10)

/-! ## `TTLCache` (class TTLCache, lines 38-61)

Wall-clock time is an explicit rational argument.  `get` returns the value
(or `none`) together with the cache after the access, since an expired
access purges the entry. -/

/-- Generic association-list lookup. -/
def plookup {α : Type} (m : List (String × α)) (k : String) : Option α :=
  match m.find? (fun p => p.1 == k) with
  | some p => some p.2
  | none => none

/-- Generic insert-or-overwrite-in-place (Python `d[k] = v`). -/
def pinsert {α : Type} (m : List (String × α)) (k : String) (v : α) :
    List (String × α) :=
  if m.any (fun p => p.1 == k) then
    m.map (fun p => if p.1 == k then (k, v) else p)
  else m ++ [(k, v)]

/-- Generic delete (Python `del d[k]`). -/
def perase {α : Type} (m : List (String × α)) (k : String) : List (String × α) :=
  m.filter (fun p => ¬ p.1 == k)

structure TTLCache (V : Type) where
  cache : List (String × V)
  timestamps : List (String × ℚ)
  ttl : ℚ

/-- `TTLCache.get`: a present entry younger than `ttl` is returned; an
older one is deleted (from both dicts) and `None` is returned.  (A key in
`cache` always has a timestamp for states produced by `set`/`clear`; the
impossible missing-timestamp case is mapped to a miss.) -/
def TTLCache.get {V : Type} (c : TTLCache V) (key : String) (now : ℚ) :
    Option V × TTLCache V :=
  match plookup c.cache key with
  | none => (none, c)
  | some v =>
    match plookup c.timestamps key with
    | none => (none, c)
    | some ts =>
      if now - ts < c.ttl then (some v, c)
      else (none, { c with cache := perase c.cache key, timestamps := perase c.timestamps key })

/-- `TTLCache.set`: store value and timestamp. -/
def TTLCache.set {V : Type} (c : TTLCache V) (key : String) (value : V) (now : ℚ) :
    TTLCache V :=
  { c with cache := pinsert c.cache key value, timestamps := pinsert c.timestamps key now }

/-- `TTLCache.clear`. -/
def TTLCache.clear {V : Type} (c : TTLCache V) : TTLCache V :=
  { c with cache := [], timestamps := [] }

/-! ## `RateLimiter` (lines 64-77)

`wait_if_needed` is not one atomic action: it reads `last_call_time`,
computes the wait, sleeps, and only then writes `last_call_time` back,
with no lock anywhere.  The model below exposes exactly those steps so
that interleavings of concurrent callers can be expressed: a caller that
enters at time `now` having read `last` is released at `releaseTime`, and
its write then sets `last_call_time` to its release time. -/

structure RateLimiter where
  callsPerSecond : ℚ
  lastCallTime : ℚ

/-- `time_to_wait = 1 / calls_per_second - (current_time - last_call_time)`. -/
def waitTime (rl : RateLimiter) (now : ℚ) : ℚ :=
  1 / rl.callsPerSecond - (now - rl.lastCallTime)

/-- The time at which a caller that entered at `now` (after reading
`last_call_time`) returns from `wait_if_needed`. -/
def releaseTime (rl : RateLimiter) (now : ℚ) : ℚ :=
  if 0 < waitTime rl now then now + waitTime rl now else now

/-- The write step after the sleep: `self.last_call_time = time.time()`. -/
def writeLastCall (rl : RateLimiter) (release : ℚ) : RateLimiter :=
  { rl with lastCallTime := release }

/-- Two threads that both enter `wait_if_needed` at time `now` and both
execute the read of `last_call_time` before either executes the write:
each computes its wait from the same stale `last_call_time`, so both are
released at the same instant.  (Nothing in the source prevents this
interleaving: there is no lock.)  Returns the two release times. -/
def raceReleases (rl : RateLimiter) (now : ℚ) : ℚ × ℚ :=
  (releaseTime rl now, releaseTime rl now)

/-- For contrast, the fully serialised execution: the second caller enters
only after the first has written.  Returns the two release times. -/
def serialReleases (rl : RateLimiter) (now1 now2 : ℚ) : ℚ × ℚ :=
  let r1 := releaseTime rl now1
  let rl1 := writeLastCall rl r1
  (r1, releaseTime rl1 now2)

/-! ## The cache-backed data store (`get_fighter_data`, `get_division_data`)

The origin fetch is modelled by an explicit `FetchOutcome` argument: what
`http_session.get(...)` + `response.json()` would deliver for this call.
The state holds the two detail TTL caches and the optional distributed
(Redis) cache; a `get_fighter_data`/`get_division_data` call returns the
data (or `none`), the state after the call, and a ghost flag telling
whether the origin was contacted. -/

inductive FetchOutcome (α : Type) where
  | success (data : α)
  | timeout
  | httpError (code : Nat)
  | networkError
  | decodeError
deriving DecidableEq

/-- Whether the fetch failed (any of the four failure kinds). -/
def FetchOutcome.failed {α : Type} : FetchOutcome α → Bool
  | .success _ => false
  | _ => true

/-- An opaque division-detail payload. -/
def DivisionDict := List (String × String)
deriving instance DecidableEq for DivisionDict

structure DataState where
  fighterDetails : TTLCache FighterDict
  divisionDetails : TTLCache DivisionDict
  redisEnabled : Bool
  redisFighters : List (String × FighterDict)
  redisDivisions : List (String × DivisionDict)

/-- Python `s.split(":", 1)[1]` (the part after the first colon). -/
def afterColon (s : String) : String := ⟨(s.data.dropWhile (fun c => ¬ c = ':')).drop 1⟩

/-- Python `s.startswith(pre)`. -/
def pyStartsWith (s pre : String) : Bool := pre.data.isPrefixOf s.data

/-- `get_fighter_data` (lines 1208-1262). -/
def get_fighter_data (fighterId : String) (fetch : FetchOutcome FighterDict)
    (now : ℚ) (st : DataState) : Option FighterDict × DataState × Bool :=
  if fighterId ≠ "" ∧ pyStartsWith fighterId "retired:" then
    (plookup RETIRED_FIGHTERS (afterColon fighterId), st, false)
  else
    match (if st.redisEnabled then plookup st.redisFighters ("fighter:" ++ fighterId) else none) with
    | some d => (some d, st, false)
    | none =>
      let got := st.fighterDetails.get fighterId now
      let st1 := { st with fighterDetails := got.2 }
      match got.1 with
      | some d => (some d, st1, false)
      | none =>
        match fetch with
        | .success d =>
          (some d,
           { st1 with
             fighterDetails := st1.fighterDetails.set fighterId d now,
             redisFighters :=
               if st.redisEnabled then pinsert st.redisFighters ("fighter:" ++ fighterId) d
               else st.redisFighters },
           true)
        | _ => (none, st1, true)

/-- `get_division_data` (lines 1264-1311). -/
def get_division_data (divisionId : String) (fetch : FetchOutcome DivisionDict)
    (now : ℚ) (st : DataState) : Option DivisionDict × DataState × Bool :=
  match (if st.redisEnabled then plookup st.redisDivisions ("division:" ++ divisionId) else none) with
  | some d => (some d, st, false)
  | none =>
    let got := st.divisionDetails.get divisionId now
    let st1 := { st with divisionDetails := got.2 }
    match got.1 with
    | some d => (some d, st1, false)
    | none =>
      match fetch with
      | .success d =>
        (some d,
         { st1 with
           divisionDetails := st1.divisionDetails.set divisionId d now,
           redisDivisions :=
             if st.redisEnabled then pinsert st.redisDivisions ("division:" ++ divisionId) d
             else st.redisDivisions },
         true)
      | _ => (none, st1, true)

/-! ## `sanitize_input` and the `/webhook` route -/

/-- `sanitize_input`: `None → ""`, control characters (code point < 32)
removed, then truncated to 200 characters. -/
def sanitize_input (text : Option String) : String :=
  match text with
  | none => ""
  | some t =>
    let cleaned : String := ⟨t.data.filter (fun c => 32 ≤ c.toNat)⟩
    if 200 < cleaned.data.length then (⟨cleaned.data.take 200⟩ : String) else cleaned

/-- The observable outcome of the `/webhook` route: either the 400
rejection (`invalid`, the classifier is NOT invoked), or the classifier's
result (`handled`, the classifier WAS invoked on the sanitised message). -/
inductive WebhookOutcome where
  | invalid
  | handled (r : QueryResult) (st : AppState)
deriving DecidableEq

/-- The `/webhook` handler (lines 1809-1830).  The request body is
`none` when there is no JSON data / the data is falsy / the `"message"`
key is absent (all three take the 400 branch), and `some msg?` when the
key is present with value `msg?` (`none` models JSON `null`). -/
def webhook (body : Option (Option String)) (st : AppState) : WebhookOutcome :=
  match body with
  | none => .invalid
  | some message? =>
    let userMessage := pyStrip (sanitize_input message?)
    let parsed := parse_query_intent userMessage st
    .handled parsed.1 parsed.2

/-! ## Sample data

A roster and rankings list with the shape of the live upstream data, used
to instantiate witnesses.  (The classifier and resolver theorems below
quantify over arbitrary resident data; these constants only discharge
hypotheses at concrete inputs.) -/

def sampleRoster : List Fighter := [
  ⟨"jon-jones", "Jon Jones", "Bones", "Wrestling, MMA"⟩,
  ⟨"alex-pereira", "Alex Pereira", "Poatan", "Kickboxing"⟩,
  ⟨"alexander-volkanovski", "Alexander Volkanovski", "The Great", "MMA"⟩,
  ⟨"charles-oliveira", "Charles Oliveira", "Do Bronx", "Brazilian Jiu-Jitsu"⟩]

def sampleRankings : List DivisionEntry := [
  ⟨"Men's Pound-for-Pound Top Rank", "mens-pound-for-pound-top-rank"⟩,
  ⟨"Flyweight", "flyweight"⟩,
  ⟨"Bantamweight", "bantamweight"⟩,
  ⟨"Featherweight", "featherweight"⟩,
  ⟨"Lightweight", "lightweight"⟩,
  ⟨"Welterweight", "welterweight"⟩,
  ⟨"Middleweight", "middleweight"⟩,
  ⟨"Light Heavyweight", "light-heavyweight"⟩,
  ⟨"Heavyweight", "heavyweight"⟩,
  ⟨"Women's Strawweight", "womens-strawweight"⟩,
  ⟨"Women's Flyweight", "womens-flyweight"⟩,
  ⟨"Women's Bantamweight", "womens-bantamweight"⟩,
  ⟨"Women's Pound-for-Pound Top Rank", "womens-pound-for-pound-top-rank"⟩]

def sampleState : AppState := initState (some sampleRoster) (some sampleRankings)

/-! ## Association-list lemmas -/

theorem plookup_pinsert_self {α : Type} (m : List (String × α)) (k : String) (v : α) :
    plookup (pinsert m k v) k = some v := by
  induction m with
  | nil => simp [pinsert, plookup]
  | cons p t ih =>
    by_cases hp : p.1 = k
    · simp [pinsert, plookup, hp]
    · by_cases ht : t.any (fun q => q.1 == k)
      · have ih2 := ih
        simp [pinsert, ht] at ih2
        simp [pinsert, plookup, hp, ht] at ih2 ⊢
        exact ih2
      · have ih2 := ih
        simp [pinsert, ht] at ih2
        simp [pinsert, plookup, hp, ht] at ih2 ⊢
        exact ih2

theorem plookup_perase_self {α : Type} (m : List (String × α)) (k : String) :
    plookup (perase m k) k = none := by
  induction m with
  | nil => simp [perase, plookup]
  | cons p t ih =>
    by_cases hp : p.1 = k
    · simpa [perase, plookup, hp] using ih
    · simpa [perase, plookup, hp] using ih

/-! ## Claim C3: TTL cache expiry -/

/-- C3 (confirmed): for every key stored in a `TTLCache` at time `s` with
per-instance TTL `t = c.ttl`, a `get` at time `s + Δ` returns the stored
value iff `Δ < t`; when `t ≤ Δ`, `get` returns `none` and removes both the
entry and its timestamp. -/
theorem ttlcache_stored_get_iff_fresh {V : Type} (c : TTLCache V) (key : String)
    (v : V) (s Δ : ℚ) :
    ((((c.set key v s).get key (s + Δ)).1 = some v) ↔ Δ < c.ttl) ∧
    (c.ttl ≤ Δ →
      ((((c.set key v s).get key (s + Δ)).1 = none) ∧
       plookup (((c.set key v s).get key (s + Δ)).2).cache key = none ∧
       plookup (((c.set key v s).get key (s + Δ)).2).timestamps key = none)) := by
  have hc : plookup (c.set key v s).cache key = some v := by
    simpa [TTLCache.set] using plookup_pinsert_self c.cache key v
  have ht : plookup (c.set key v s).timestamps key = some s := by
    simpa [TTLCache.set] using plookup_pinsert_self c.timestamps key s
  have httl : (c.set key v s).ttl = c.ttl := rfl
  have hΔ : s + Δ - s = Δ := by ring
  by_cases h : Δ < c.ttl
  · constructor
    · simp [TTLCache.get, hc, ht, httl, hΔ, h]
    · intro hle; linarith
  · constructor
    · simp [TTLCache.get, hc, ht, httl, hΔ, h]
    · intro _
      refine ⟨by simp [TTLCache.get, hc, ht, httl, hΔ, h], ?_, ?_⟩
      · simp [TTLCache.get, hc, ht, httl, hΔ, h, plookup_perase_self]
      · simp [TTLCache.get, hc, ht, httl, hΔ, h, plookup_perase_self]

/-! ## Claim C4: the rate limiter under concurrency -/

/-- C4 (code bug): `wait_if_needed` has no lock, so two callers can both
read `last_call_time` before either writes it.  With `calls_per_second = 3`
(the deployed `api_rate_limiter`), `last_call_time = 100`, and both
threads entering at `100 + 1/10`, both are released at the same instant:
the spacing between the two released calls is `0 < 1/3`, violating the
minimum-interval guarantee the spec states.  The serialised schedule, by
contrast, spaces the same two calls by exactly `1/3`. -/
theorem rate_limiter_race_breaks_spacing :
    (raceReleases ⟨3, 100⟩ (100 + 1/10)).2 - (raceReleases ⟨3, 100⟩ (100 + 1/10)).1 = 0 ∧
    (0 : ℚ) < 1 / (3 : ℚ) ∧
    (serialReleases ⟨3, 100⟩ (100 + 1/10) (100 + 1/10)).2 -
      (serialReleases ⟨3, 100⟩ (100 + 1/10) (100 + 1/10)).1 = 1 / 3 := by
  refine ⟨by simp [raceReleases], by norm_num, ?_⟩
  simp only [serialReleases, writeLastCall, releaseTime, waitTime]
  norm_num

/-! ## Claim C6: empty or missing webhook message -/

/-- C6 counterexample: a request whose `message` field is present but the
empty string is NOT rejected: the classifier is invoked (outcome
`handled`, not `invalid`) and returns the `unknown` intent. -/
theorem webhook_empty_message_invokes_classifier :
    webhook (some (some "")) sampleState =
      .handled { intent := "unknown" } sampleState ∧
    webhook (some (some "")) sampleState ≠ .invalid := by
  constructor
  · rfl
  · intro h
    simp [webhook, sanitize_input, pyStrip, parse_query_intent] at h

/-- C6 (corrected): a request with no JSON body / no `message` key is
rejected as invalid input without invoking the classifier; a request whose
`message` is present but empty (or JSON `null`) passes validation, and the
classifier IS invoked, returning the `unknown` intent. -/
theorem webhook_missing_vs_empty_message (st : AppState) :
    webhook none st = .invalid ∧
    webhook (some (some "")) st = .handled { intent := "unknown" } st ∧
    webhook (some none) st = .handled { intent := "unknown" } st := by
  refine ⟨rfl, ?_, ?_⟩
  · simp [webhook, sanitize_input, pyStrip, parse_query_intent]
  · simp [webhook, sanitize_input, pyStrip, parse_query_intent]

set_option maxRecDepth 10000

theorem dlookup_eq_plookup (m : List (String × String)) (k : String) :
    dlookup m k = plookup m k := by
  cases h : m.find? (fun p => p.1 == k) <;> simp [dlookup, plookup, h]

theorem dinsert_eq_pinsert (m : List (String × String)) (k v : String) :
    dinsert m k v = pinsert m k v := by
  by_cases h : m.any (fun p => p.1 == k) <;> simp [dinsert, pinsert, h]

theorem dlookup_dinsert_self (m : List (String × String)) (k v : String) :
    dlookup (dinsert m k v) k = some v := by
  rw [dlookup_eq_plookup, dinsert_eq_pinsert]
  exact plookup_pinsert_self m k v

/-! ## Claim C2: comparison has priority over fighter-info -/

/-- C2 (confirmed): `parse_query_intent` tries the two-fighter comparison
matcher first; `"jones vs pereira"` (both names resolvable through the
standalone-last-name table) classifies as `fighter_comparison` with both
resolved ids, and in particular not as `fighter_info`. -/
theorem comparison_beats_fighter_info_on_jones_vs_pereira :
    (parse_query_intent "jones vs pereira" sampleState).1 =
      { intent := "fighter_comparison", fighter1Id := some "jon-jones",
        fighter2Id := some "alex-pereira" } ∧
    (parse_query_intent "jones vs pereira" sampleState).1.intent ≠ "fighter_info" := by
  constructor
  · rfl
  · intro h
    have : (parse_query_intent "jones vs pereira" sampleState).1.intent =
        "fighter_comparison" := rfl
    rw [this] at h
    exact absurd h (by decide)

/-! ## Claim C1: the fuzzy threshold

The threshold branch of the fuzzy stage does discard candidates with
combined score ≤ 0.6, but the token branch (`name_lower == part` or a
query of length > 3 contained in a name part) appends candidates with the
token similarity as score and NO threshold, so a candidate whose combined
score is below 0.6 can still be returned. -/

/-- C1 counterexample: for the query `"volk"` against a roster holding
only Alexander Volkanovski, every earlier resolution step fails and the
fighter's combined fuzzy score is `16/50 < 0.6`, yet the fuzzy stage (and
`resolve_fighter_name` as a whole) returns him, through the token branch
(`"volk"` is contained in the name part `"volkanovski"`). -/
theorem fuzzy_token_branch_counterexample :
    Frac.ltb (combinedScore "volk" none
      ⟨"alexander-volkanovski", "Alexander Volkanovski", "The Great", "MMA"⟩) ⟨3, 5⟩ = true ∧
    dlookup initNameMap "volk" = none ∧
    retiredScan "volk" = none ∧
    ([(⟨"alexander-volkanovski", "Alexander Volkanovski", "The Great", "MMA"⟩ : Fighter)].find?
      (fun f => lowStr f.name == "volk")) = none ∧
    fuzzyStage "volk" none
      [⟨"alexander-volkanovski", "Alexander Volkanovski", "The Great", "MMA"⟩] =
      some "alexander-volkanovski" ∧
    (resolve_fighter_name "volk"
      (initState (some [⟨"alexander-volkanovski", "Alexander Volkanovski", "The Great", "MMA"⟩])
        none)).result = some "alexander-volkanovski" := by
  decide

/-- The fuzzy stage yields no candidate when every fighter is both below
the 0.6 combined-score threshold and free of a token match. -/
theorem fuzzyStage_eq_none (nameLower : String) (mentionedStyle : Option String)
    (fightersData : List Fighter)
    (hthresh : ∀ f ∈ fightersData,
      Frac.ltb ⟨3, 5⟩ (combinedScore nameLower mentionedStyle f) = false)
    (htok : ∀ f ∈ fightersData, tokenMatch nameLower f = none) :
    fuzzyStage nameLower mentionedStyle fightersData = none := by
  unfold fuzzyStage
  have hnil : fightersData.flatMap (fun f =>
      (if Frac.ltb ⟨3, 5⟩ (combinedScore nameLower mentionedStyle f)
        then [(f.id, combinedScore nameLower mentionedStyle f)] else []) ++
      (match tokenMatch nameLower f with
       | some part => [(f.id, ratioScore nameLower.data part.data)]
       | none => [])) = [] := by
    induction fightersData with
    | nil => rfl
    | cons f t ih =>
      have h1 := hthresh f (by simp)
      have h2 := htok f (by simp)
      have ht : ∀ g ∈ t, Frac.ltb ⟨3, 5⟩ (combinedScore nameLower mentionedStyle g) = false :=
        fun g hg => hthresh g (by simp [hg])
      have ht2 : ∀ g ∈ t, tokenMatch nameLower g = none :=
        fun g hg => htok g (by simp [hg])
      simp [List.flatMap_cons, h1, h2, ih ht ht2]
  rw [hnil]
  rfl

/-- C1 (corrected): if no earlier step succeeds (alias map, retired
registry), the roster is resident, no fighter matches the query exactly,
every fighter's combined fuzzy score is at most the 0.6 threshold AND no
fighter has a matching name token, then `resolve_fighter_name` returns no
match.  (The token-match exclusion is the amendment the counterexample
forces: token-branch candidates bypass the threshold.) -/
theorem resolve_no_match_below_threshold (name : String) (st : AppState)
    (fightersData : List Fighter)
    (hf : st.fighters = some fightersData)
    (hmap : dlookup st.nameMap (nicknameRewrite (normQuery name)) = none)
    (hret : retiredScan (nicknameRewrite (normQuery name)) = none)
    (hexact : ∀ f ∈ fightersData,
      ¬ lowStr f.name = (stripStyle (nicknameRewrite (normQuery name))).2)
    (hthresh : ∀ f ∈ fightersData,
      Frac.ltb ⟨3, 5⟩ (combinedScore (stripStyle (nicknameRewrite (normQuery name))).2
        (stripStyle (nicknameRewrite (normQuery name))).1 f) = false)
    (htok : ∀ f ∈ fightersData,
      tokenMatch (stripStyle (nicknameRewrite (normQuery name))).2 f = none) :
    (resolve_fighter_name name st).result = none := by
  by_cases hname : name = ""
  · simp [resolve_fighter_name, hname]
  · have hfind : fightersData.find?
        (fun f => lowStr f.name == (stripStyle (nicknameRewrite (normQuery name))).2) = none := by
      rw [List.find?_eq_none]
      intro f hfmem
      simpa using hexact f hfmem
    have hfz := fuzzyStage_eq_none (stripStyle (nicknameRewrite (normQuery name))).2
      (stripStyle (nicknameRewrite (normQuery name))).1 fightersData hthresh htok
    cases fightersData with
    | nil =>
      simp [resolve_fighter_name, hname, hmap, hret, hf]
    | cons f0 t =>
      simp [resolve_fighter_name, hname, hmap, hret, hf, hfind, hfz]

/-- C1 witness: the query `"zzzz qqqq"` against the sample roster misses
the alias map, the retired registry, the exact match, every combined score
is below 0.6, no token matches — and resolution indeed returns no match. -/
theorem resolve_no_match_below_threshold_witness :
    (resolve_fighter_name "zzzz qqqq" sampleState).result = none :=
  resolve_no_match_below_threshold "zzzz qqqq" sampleState sampleRoster rfl
    (by decide) (by decide) (by decide) (by decide) (by decide)

/-! ## Shape lemmas for `resolve_fighter_name` -/

theorem resolve_shape_mapHit (name v : String) (st : AppState) (hname : ¬ name = "")
    (hlook : dlookup st.nameMap (nicknameRewrite (normQuery name)) = some v) :
    resolve_fighter_name name st = ⟨some v, st, false⟩ := by
  simp [resolve_fighter_name, hname, hlook]

theorem resolve_shape_retired (name rid : String) (st : AppState) (hname : ¬ name = "")
    (hlook : dlookup st.nameMap (nicknameRewrite (normQuery name)) = none)
    (hret : retiredScan (nicknameRewrite (normQuery name)) = some rid) :
    resolve_fighter_name name st = ⟨some rid, st, false⟩ := by
  simp [resolve_fighter_name, hname, hlook, hret]

theorem resolve_shape_exact (name : String) (st : AppState) (f0 f : Fighter)
    (t : List Fighter) (hname : ¬ name = "")
    (hlook : dlookup st.nameMap (nicknameRewrite (normQuery name)) = none)
    (hret : retiredScan (nicknameRewrite (normQuery name)) = none)
    (hf : st.fighters = some (f0 :: t))
    (hfind : (f0 :: t).find?
      (fun g => lowStr g.name == (stripStyle (nicknameRewrite (normQuery name))).2) = some f) :
    resolve_fighter_name name st =
      ⟨some f.id,
       { st with
         nameMap :=
           dinsert (bulkPopulate st) (stripStyle (nicknameRewrite (normQuery name))).2 f.id },
       true⟩ := by
  simp [resolve_fighter_name, hname, hlook, hret, hf, hfind, bulkPopulate]

theorem resolve_shape_fuzzy (name bestId : String) (st : AppState) (f0 : Fighter)
    (t : List Fighter) (hname : ¬ name = "")
    (hlook : dlookup st.nameMap (nicknameRewrite (normQuery name)) = none)
    (hret : retiredScan (nicknameRewrite (normQuery name)) = none)
    (hf : st.fighters = some (f0 :: t))
    (hfind : (f0 :: t).find?
      (fun g => lowStr g.name == (stripStyle (nicknameRewrite (normQuery name))).2) = none)
    (hfz : fuzzyStage (stripStyle (nicknameRewrite (normQuery name))).2
      (stripStyle (nicknameRewrite (normQuery name))).1 (f0 :: t) = some bestId) :
    resolve_fighter_name name st =
      ⟨some bestId,
       { st with
         nameMap :=
           dinsert (bulkPopulate st) (stripStyle (nicknameRewrite (normQuery name))).2 bestId },
       true⟩ := by
  simp [resolve_fighter_name, hname, hlook, hret, hf, hfind, hfz, bulkPopulate]

theorem resolve_shape_noData (name : String) (st : AppState) (hname : ¬ name = "")
    (hlook : dlookup st.nameMap (nicknameRewrite (normQuery name)) = none)
    (hret : retiredScan (nicknameRewrite (normQuery name)) = none)
    (hf : st.fighters = none) :
    (resolve_fighter_name name st).result = none := by
  simp [resolve_fighter_name, hname, hlook, hret, hf]

theorem resolve_shape_emptyData (name : String) (st : AppState) (hname : ¬ name = "")
    (hlook : dlookup st.nameMap (nicknameRewrite (normQuery name)) = none)
    (hret : retiredScan (nicknameRewrite (normQuery name)) = none)
    (hf : st.fighters = some []) :
    (resolve_fighter_name name st).result = none := by
  simp [resolve_fighter_name, hname, hlook, hret, hf]

theorem resolve_shape_fuzzyNone (name : String) (st : AppState) (f0 : Fighter)
    (t : List Fighter) (hname : ¬ name = "")
    (hlook : dlookup st.nameMap (nicknameRewrite (normQuery name)) = none)
    (hret : retiredScan (nicknameRewrite (normQuery name)) = none)
    (hf : st.fighters = some (f0 :: t))
    (hfind : (f0 :: t).find?
      (fun g => lowStr g.name == (stripStyle (nicknameRewrite (normQuery name))).2) = none)
    (hfz : fuzzyStage (stripStyle (nicknameRewrite (normQuery name))).2
      (stripStyle (nicknameRewrite (normQuery name))).1 (f0 :: t) = none) :
    (resolve_fighter_name name st).result = none := by
  simp [resolve_fighter_name, hname, hlook, hret, hf, hfind, hfz]

/-! ## Claim C5: idempotence and memoization of name resolution -/

/-- C5 counterexample: resolving `"khabib"` succeeds through the
retired-fighter registry, but the exact lowercase query `"khabib"` is NOT
memoized: the alias map (indeed the whole state) is unchanged by the
call. -/
theorem resolve_memoization_counterexample :
    (resolve_fighter_name "khabib" sampleState).result =
      some "retired:khabib nurmagomedov" ∧
    (resolve_fighter_name "khabib" sampleState).st = sampleState ∧
    dlookup (resolve_fighter_name "khabib" sampleState).st.nameMap "khabib" = none := by
  decide

/-- C5 (corrected): for a query that triggers no nickname rewrite and no
style strip, a successful resolution is idempotent — the second identical
call returns the same id without scanning the roster — and whenever the
first call did scan the roster (exact or fuzzy stage, ghost flag `true`),
the exact lowercase query has been memoized to the resolved id in the
alias map.  (Earlier-stage successes — alias map, retired registry — do
not memoize the query, as the counterexample shows; for them the state is
unchanged and the second call repeats the same lookup.) -/
theorem resolve_idempotent_plain (name fid : String) (st st1 : AppState) (b : Bool)
    (hnick : nicknameRewrite (normQuery name) = normQuery name)
    (hstyle : stripStyle (normQuery name) = (none, normQuery name))
    (hres : resolve_fighter_name name st = ⟨some fid, st1, b⟩) :
    resolve_fighter_name name st1 = ⟨some fid, st1, false⟩ ∧
    (b = true → dlookup st1.nameMap (normQuery name) = some fid) := by
  by_cases hname : name = ""
  · rw [hname] at hres
    simp [resolve_fighter_name] at hres
  · have hnl2 : (stripStyle (nicknameRewrite (normQuery name))).2 = normQuery name := by
      rw [hnick, hstyle]
    have hnl1 : (stripStyle (nicknameRewrite (normQuery name))).1 = none := by
      rw [hnick, hstyle]
    cases hlook : dlookup st.nameMap (nicknameRewrite (normQuery name)) with
    | some v =>
      rw [resolve_shape_mapHit name v st hname hlook] at hres
      injection hres with h1 h2 h3
      injection h1 with h1
      subst h1; subst h2; subst h3
      refine ⟨resolve_shape_mapHit name v st hname hlook, ?_⟩
      intro hb; exact absurd hb (by decide)
    | none =>
      cases hret : retiredScan (nicknameRewrite (normQuery name)) with
      | some rid =>
        rw [resolve_shape_retired name rid st hname hlook hret] at hres
        injection hres with h1 h2 h3
        injection h1 with h1
        subst h1; subst h2; subst h3
        refine ⟨resolve_shape_retired name rid st hname hlook hret, ?_⟩
        intro hb; exact absurd hb (by decide)
      | none =>
        cases hf : st.fighters with
        | none =>
          have hnone := resolve_shape_noData name st hname hlook hret hf
          rw [hres] at hnone
          simp at hnone
        | some fightersData =>
          cases fightersData with
          | nil =>
            have hnone := resolve_shape_emptyData name st hname hlook hret hf
            rw [hres] at hnone
            simp at hnone
          | cons f0 t =>
            cases hfind : (f0 :: t).find?
                (fun g => lowStr g.name == (stripStyle (nicknameRewrite (normQuery name))).2) with
            | some f =>
              rw [resolve_shape_exact name st f0 f t hname hlook hret hf hfind] at hres
              injection hres with h1 h2 h3
              injection h1 with h1
              subst h1; subst h3; subst h2
              have hmemoB : dlookup (dinsert (bulkPopulate st)
                  (stripStyle (normQuery name)).2 f.id) (normQuery name)
                  = some f.id := by
                rw [hstyle]
                exact dlookup_dinsert_self _ _ _
              have hmemoA : dlookup (dinsert (bulkPopulate st)
                  (stripStyle (nicknameRewrite (normQuery name))).2 f.id) (normQuery name)
                  = some f.id := by
                rw [hnick]
                exact hmemoB
              refine ⟨?_, fun _ => hmemoA⟩
              exact resolve_shape_mapHit name f.id _ hname (by rw [hnick]; exact hmemoB)
            | none =>
              cases hfz : fuzzyStage (stripStyle (nicknameRewrite (normQuery name))).2
                  (stripStyle (nicknameRewrite (normQuery name))).1 (f0 :: t) with
              | some bestId =>
                rw [resolve_shape_fuzzy name bestId st f0 t hname hlook hret hf hfind hfz] at hres
                injection hres with h1 h2 h3
                injection h1 with h1
                subst h1; subst h3; subst h2
                have hmemoB : dlookup (dinsert (bulkPopulate st)
                    (stripStyle (normQuery name)).2 bestId) (normQuery name)
                    = some bestId := by
                  rw [hstyle]
                  exact dlookup_dinsert_self _ _ _
                have hmemoA : dlookup (dinsert (bulkPopulate st)
                    (stripStyle (nicknameRewrite (normQuery name))).2 bestId) (normQuery name)
                    = some bestId := by
                  rw [hnick]
                  exact hmemoB
                refine ⟨?_, fun _ => hmemoA⟩
                exact resolve_shape_mapHit name bestId _ hname (by rw [hnick]; exact hmemoB)
              | none =>
                have hnone :=
                  resolve_shape_fuzzyNone name st f0 t hname hlook hret hf hfind hfz
                rw [hres] at hnone
                simp at hnone

/-- C5 witness: resolving `"Alexander Volkanovski"` (no nickname
substring, no style keyword) against the sample roster succeeds through
the exact-match stage; the second call is served from the alias map
without a roster scan, and the lowercase query is memoized. -/
theorem resolve_idempotent_plain_witness :
    resolve_fighter_name "Alexander Volkanovski"
        ((resolve_fighter_name "Alexander Volkanovski" sampleState).st) =
      ⟨some "alexander-volkanovski",
       (resolve_fighter_name "Alexander Volkanovski" sampleState).st, false⟩ ∧
    dlookup (resolve_fighter_name "Alexander Volkanovski" sampleState).st.nameMap
        "alexander volkanovski" = some "alexander-volkanovski" := by
  have h := resolve_idempotent_plain "Alexander Volkanovski" "alexander-volkanovski"
    sampleState ((resolve_fighter_name "Alexander Volkanovski" sampleState).st) true
    (by decide) (by decide) rfl
  exact ⟨h.1, h.2 rfl⟩

/-! ## Claim C7: origin failures are not cached -/

/-- A `get` that missed keeps missing: re-reading the same key at the same
time still yields `none` (the entry is either absent or was just purged). -/
theorem ttlcache_get_none_again {V : Type} (c : TTLCache V) (k : String) (t : ℚ)
    (h : (c.get k t).1 = none) : (((c.get k t).2).get k t).1 = none := by
  unfold TTLCache.get at h ⊢
  cases hcv : plookup c.cache k with
  | none => simp [hcv]
  | some v =>
    cases hts : plookup c.timestamps k with
    | none => simp [hcv, hts]
    | some ts =>
      by_cases hfr : t - ts < c.ttl
      · simp only [hcv, hts, if_pos hfr] at h
        simp at h
      · simp only [hcv, hts, if_neg hfr]
        simp [plookup_perase_self]

/-- The failure path of `get_fighter_data`: retired branch not taken,
distributed cache misses, local cache misses, fetch fails ⇒ the result is
`none`, the origin was contacted, and the only state change is what the
TTL read itself did (the purge of an expired entry); nothing is written. -/
theorem get_fighter_data_failure_shape (fid : String) (ff : FetchOutcome FighterDict)
    (now : ℚ) (st : DataState)
    (hret : ¬ (fid ≠ "" ∧ pyStartsWith fid "retired:" = true))
    (hrf : (if st.redisEnabled then plookup st.redisFighters ("fighter:" ++ fid) else none) = none)
    (hcf : (st.fighterDetails.get fid now).1 = none)
    (hff : ff.failed = true) :
    get_fighter_data fid ff now st =
      (none, { st with fighterDetails := (st.fighterDetails.get fid now).2 }, true) := by
  cases ff with
  | success d => simp [FetchOutcome.failed] at hff
  | timeout => simp [get_fighter_data, hret, hrf, hcf]
  | httpError code => simp [get_fighter_data, hret, hrf, hcf]
  | networkError => simp [get_fighter_data, hret, hrf, hcf]
  | decodeError => simp [get_fighter_data, hret, hrf, hcf]

/-- The failure path of `get_division_data` (same shape). -/
theorem get_division_data_failure_shape (did : String) (fd : FetchOutcome DivisionDict)
    (now : ℚ) (st : DataState)
    (hrd : (if st.redisEnabled then plookup st.redisDivisions ("division:" ++ did) else none) = none)
    (hcd : (st.divisionDetails.get did now).1 = none)
    (hfd : fd.failed = true) :
    get_division_data did fd now st =
      (none, { st with divisionDetails := (st.divisionDetails.get did now).2 }, true) := by
  cases fd with
  | success d => simp [FetchOutcome.failed] at hfd
  | timeout => simp [get_division_data, hrd, hcd]
  | httpError code => simp [get_division_data, hrd, hcd]
  | networkError => simp [get_division_data, hrd, hcd]
  | decodeError => simp [get_division_data, hrd, hcd]

/-- C7 (corrected): when the origin fetch of a fighter or division fails
(timeout, HTTP error, network error or malformed payload) and neither
cache tier had the entry, the lookup returns `none`, writes nothing into
the local TTL cache or the distributed cache (the one state change is the
purge the TTL read itself performed on an already-expired entry - the
amendment the counterexample forces), and the next call for the same key
contacts the origin again. -/
theorem origin_failure_not_cached (fid did : String) (ff : FetchOutcome FighterDict)
    (fd : FetchOutcome DivisionDict) (now : ℚ) (st : DataState)
    (hret : ¬ (fid ≠ "" ∧ pyStartsWith fid "retired:" = true))
    (hrf : (if st.redisEnabled then plookup st.redisFighters ("fighter:" ++ fid) else none) = none)
    (hrd : (if st.redisEnabled then plookup st.redisDivisions ("division:" ++ did) else none) = none)
    (hcf : (st.fighterDetails.get fid now).1 = none)
    (hcd : (st.divisionDetails.get did now).1 = none)
    (hff : ff.failed = true) (hfd : fd.failed = true) :
    get_fighter_data fid ff now st =
      (none, { st with fighterDetails := (st.fighterDetails.get fid now).2 }, true) ∧
    get_division_data did fd now st =
      (none, { st with divisionDetails := (st.divisionDetails.get did now).2 }, true) ∧
    (get_fighter_data fid ff now ((get_fighter_data fid ff now st).2.1)).2.2 = true ∧
    (get_division_data did fd now ((get_division_data did fd now st).2.1)).2.2 = true := by
  have h1 := get_fighter_data_failure_shape fid ff now st hret hrf hcf hff
  have h2 := get_division_data_failure_shape did fd now st hrd hcd hfd
  refine ⟨h1, h2, ?_, ?_⟩
  · rw [h1]
    have h3 := get_fighter_data_failure_shape fid ff now
      { st with fighterDetails := (st.fighterDetails.get fid now).2 } hret hrf
      (ttlcache_get_none_again st.fighterDetails fid now hcf) hff
    rw [h3]
  · rw [h2]
    have h3 := get_division_data_failure_shape did fd now
      { st with divisionDetails := (st.divisionDetails.get did now).2 } hrd
      (ttlcache_get_none_again st.divisionDetails did now hcd) hfd
    rw [h3]

/-- A data state with one fighter entry stored at time 0 (stale by time
7200 against the 1-hour TTL). -/
def staleDataState : DataState :=
  ⟨⟨[("jon-jones", [("name", "Jon Jones")])], [("jon-jones", 0)], 3600⟩,
   ⟨[], [], 3600⟩, false, [], []⟩

/-- C7 counterexample: on a failed fetch the lookup returns no data and
writes nothing, but the cache state is NOT literally unchanged — the TTL
read purges the expired entry, so the cache differs after the erroring
call. -/
theorem fetch_failure_cache_changed_counterexample :
    (get_fighter_data "jon-jones" .timeout 7200 staleDataState).1 = none ∧
    (get_fighter_data "jon-jones" .timeout 7200 staleDataState).2.1.fighterDetails.cache ≠
      staleDataState.fighterDetails.cache := by
  have hret : ¬ (("jon-jones" : String) ≠ "" ∧
      pyStartsWith "jon-jones" "retired:" = true) := by decide
  have hexp : ¬ ((7200 : ℚ) < 3600) := by norm_num
  have hcf : (staleDataState.fighterDetails.get "jon-jones" 7200).1 = none := by
    simp [staleDataState, TTLCache.get, plookup, hexp]
  have h := get_fighter_data_failure_shape "jon-jones" .timeout 7200 staleDataState
    hret rfl hcf rfl
  constructor
  · rw [h]
  · rw [h]
    simp [staleDataState, TTLCache.get, plookup, perase, hexp]

/-- An empty data state (fresh caches, no distributed cache). -/
def emptyDataState : DataState := ⟨⟨[], [], 3600⟩, ⟨[], [], 3600⟩, false, [], []⟩

/-- C7 witness: a timeout on a fighter fetch and a decode error on a
division fetch against empty caches return no data, and the immediately
following calls contact the origin again. -/
theorem origin_failure_not_cached_witness :
    (get_fighter_data "jon-jones" .timeout 0 emptyDataState).1 = none ∧
    (get_division_data "lightweight" .decodeError 0 emptyDataState).1 = none ∧
    (get_fighter_data "jon-jones" .timeout 0
      ((get_fighter_data "jon-jones" .timeout 0 emptyDataState).2.1)).2.2 = true ∧
    (get_division_data "lightweight" .decodeError 0
      ((get_division_data "lightweight" .decodeError 0 emptyDataState).2.1)).2.2 = true := by
  have h := origin_failure_not_cached "jon-jones" "lightweight" .timeout .decodeError 0
    emptyDataState (by decide) rfl rfl rfl rfl rfl rfl
  exact ⟨by rw [h.1], by rw [h.2.1], h.2.2.1, h.2.2.2⟩

/-! ## Claim C8: division-name round-trip -/

theorem plookup_pinsert_ne {α : Type} (m : List (String × α)) (k kOther : String)
    (v : α) (h : ¬ kOther = k) :
    plookup (pinsert m kOther v) k = plookup m k := by
  unfold pinsert
  by_cases ha : m.any (fun p => p.1 == kOther)
  · simp only [if_pos ha]
    unfold plookup
    rw [List.find?_map]
    have hfun : ((fun p : String × α => p.1 == k) ∘
        (fun p : String × α => if p.1 == kOther then (kOther, v) else p)) =
        (fun p : String × α => p.1 == k) := by
      funext q
      by_cases hq : q.1 = kOther
      · simp [Function.comp, hq, h]
      · simp [Function.comp, hq]
    rw [hfun]
    cases hf : m.find? (fun p => p.1 == k) with
    | none => simp
    | some q0 =>
      have hq0 := List.find?_some hf
      simp only at hq0
      have hq0k : ¬ q0.1 = kOther := by
        intro hh
        rw [hh] at hq0
        exact h (by simpa using hq0)
      simp [hq0k]
  · simp only [if_neg ha]
    unfold plookup
    rw [List.find?_append]
    have : List.find? (fun p : String × α => p.1 == k) [(kOther, v)] = none := by
      simp [h]
    rw [this]
    cases m.find? (fun p : String × α => p.1 == k) <;> simp

theorem dlookup_dinsert_ne (m : List (String × String)) (k kOther v : String)
    (h : ¬ kOther = k) : dlookup (dinsert m kOther v) k = dlookup m k := by
  rw [dlookup_eq_plookup, dinsert_eq_pinsert, plookup_pinsert_ne m k kOther v h,
    ← dlookup_eq_plookup]

/-- Folding `dinsert` over a pair list: when `(k, v)` occurs among the
pairs (or already holds in the base) and every pair with key `k` carries
the same value `v`, the final lookup yields `v`. -/
theorem dlookup_foldl_dinsert (pairs : List (String × String))
    (base : List (String × String)) (k v : String)
    (hin : (k, v) ∈ pairs ∨ dlookup base k = some v)
    (hall : ∀ w, (k, w) ∈ pairs → w = v) :
    dlookup (pairs.foldl (fun m p => dinsert m p.1 p.2) base) k = some v := by
  induction pairs generalizing base with
  | nil => simpa using hin
  | cons p t ih =>
    simp only [List.foldl_cons]
    by_cases hk : p.1 = k
    · have hp : p = (k, p.2) := by
        cases p with
        | mk a b =>
          simp only at hk
          rw [hk]
      have hv : p.2 = v := hall p.2 (by rw [← hp]; exact List.mem_cons_self p t)
      apply ih
      · right
        rw [hk, hv]
        exact dlookup_dinsert_self base k v
      · intro w hw
        exact hall w (List.mem_cons_of_mem p hw)
    · apply ih
      · cases hin with
        | inl hmem =>
          cases List.mem_cons.mp hmem with
          | inl heq =>
            exfalso
            apply hk
            rw [← heq]
          | inr ht => exact Or.inl ht
        | inr hbase =>
          right
          rw [dlookup_dinsert_ne base k p.1 p.2 hk]
          exact hbase
      · intro w hw
        exact hall w (List.mem_cons_of_mem p hw)

/-- The per-division nested insert loop of `build_division_mapping` is the
flat fold over the concatenated pair lists. -/
theorem foldl_dinsert_flatMap (rd : List DivisionEntry) (base : List (String × String)) :
    rd.foldl (fun m d => (divPairs d).foldl (fun m p => dinsert m p.1 p.2) m) base =
    (rd.flatMap divPairs).foldl (fun m p => dinsert m p.1 p.2) base := by
  induction rd generalizing base with
  | nil => rfl
  | cons d t ih =>
    simp only [List.foldl_cons, List.flatMap_cons, List.foldl_append]
    exact ih _

theorem lowStr_ne_empty (s : String) (h : ¬ s = "") : ¬ lowStr s = "" := by
  intro hc
  apply h
  cases s with
  | mk data =>
    have hmap : data.map lowChar = [] := by
      simpa [lowStr] using congrArg String.data hc
    have hd : data = [] := List.map_eq_nil_iff.mp hmap
    rw [hd]

/-- C8 (corrected): a division of the loaded rankings data round-trips
through `normalize_division_name` — feeding its lowercased `categoryName`
returns its own id — provided the special-case branches of the normaliser
do not preempt the lookup: the name mentions neither "pound" nor "p4p"
(those return the hardcoded pound-for-pound ids), does not contain both
"light" and "heavy" (that returns the hardcoded light-heavyweight id),
needs no trimming, and no other entry of the built mapping binds the same
key to a different id. -/
theorem division_roundtrip (rd : List DivisionEntry) (d : DivisionEntry) (st : AppState)
    (hrk : st.rankings = some rd) (hdm : st.divisionMapping = none)
    (hmem : d ∈ rd) (hcn : ¬ d.categoryName = "") (hid : ¬ d.id = "")
    (hlow : lowStr (lowStr d.categoryName) = lowStr d.categoryName)
    (htrim : pyStrip (lowStr d.categoryName) = lowStr d.categoryName)
    (hpound : subStr "pound" (lowStr d.categoryName) = false)
    (hp4p : subStr "p4p" (lowStr d.categoryName) = false)
    (hlh : ¬ (subStr "light" (lowStr d.categoryName) = true ∧
      subStr "heavy" (lowStr d.categoryName) = true))
    (huniq : ∀ p ∈ rd.flatMap divPairs, p.1 = lowStr d.categoryName → p.2 = d.id) :
    (normalize_division_name (lowStr d.categoryName) st).1 = some d.id := by
  have hne := lowStr_ne_empty d.categoryName hcn
  have hm : (build_division_mapping st).1 =
      (rd.flatMap divPairs).foldl (fun m p => dinsert m p.1 p.2)
        (WEIGHT_CLASS_MAPPING.foldl (fun m p => dinsert m p.1 p.2) []) := by
    simp only [build_division_mapping, hdm, hrk]
    exact foldl_dinsert_flatMap rd _
  have hpair : ((lowStr d.categoryName), d.id) ∈ rd.flatMap divPairs := by
    apply List.mem_flatMap.mpr
    refine ⟨d, hmem, ?_⟩
    unfold divPairs
    rw [if_pos ⟨hne, hid⟩]
    simp
  have hkey : dlookup (build_division_mapping st).1 (lowStr d.categoryName) = some d.id := by
    rw [hm]
    exact dlookup_foldl_dinsert _ _ _ _ (Or.inl hpair)
      (fun w hw => huniq (lowStr d.categoryName, w) hw rfl)
  unfold normalize_division_name
  rw [if_neg hne]
  simp [hlow, htrim, hpound, hp4p, hlh, hkey]

/-- C8 witness: the `"Heavyweight"` division of the sample rankings
round-trips: normalising its lowercased category name yields its id. -/
theorem division_roundtrip_witness :
    (normalize_division_name (lowStr "Heavyweight") sampleState).1 = some "heavyweight" :=
  division_roundtrip sampleRankings ⟨"Heavyweight", "heavyweight"⟩ sampleState rfl rfl
    (by decide) (by decide) (by decide) (by decide) (by decide) (by decide) (by decide)
    (by decide) (by decide)

/-- C8 counterexample: a loaded division whose lowercased category name
contains "pound" does not round-trip — the normaliser's pound-for-pound
special case preempts the mapping and returns the hardcoded men's P4P id
instead of the division's own id. -/
theorem division_roundtrip_counterexample :
    (normalize_division_name (lowStr "Pound")
      (initState none (some [⟨"Pound", "pound-division"⟩]))).1 =
      some "mens-pound-for-pound-top-rank" ∧
    ¬ (some "mens-pound-for-pound-top-rank" = some ("pound-division" : String)) := by
  constructor
  · rfl
  · decide

/-! ## Claim C9: numeric weight mentions and thresholds -/

deriving instance DecidableEq for Caps

/-- C9 (corrected): provided the normalised phrase is not itself a key of
the division mapping (the mapping check precedes the numeric patterns and
would preempt them — the amendment the counterexample forces), a numeric
weight mention with a pound/lb/lbs unit maps its (leftmost) number through
the upper-bound thresholds, and a kg mention (tried only when no pound
mention matches) converts via `× 2.20462` truncated before thresholding;
the thresholds are ≤125 flyweight, ≤135 bantamweight, ≤145 featherweight,
≤155 lightweight, ≤170 welterweight, ≤185 middleweight,
≤205 light-heavyweight, heavyweight otherwise. -/
theorem identify_weight_class_thresholds (phrase : String) (st : AppState)
    (hne : ¬ phrase = "")
    (hkey : dlookup (build_division_mapping st).1 (pyStrip (lowStr phrase)) = none) :
    (∀ caps, rxSearch wtP1 (pyStrip (lowStr phrase)) = some caps →
      (identify_weight_class phrase st).1 =
        some (poundClass (digitsToNat (rxGroup caps 1)))) ∧
    (rxSearch wtP1 (pyStrip (lowStr phrase)) = none →
      ∀ caps, rxSearch wtP2 (pyStrip (lowStr phrase)) = some caps →
      (identify_weight_class phrase st).1 =
        some (poundClass (kgToLbs (digitsToNat (rxGroup caps 1))))) ∧
    (poundClass 125 = "flyweight" ∧ poundClass 135 = "bantamweight" ∧
     poundClass 145 = "featherweight" ∧ poundClass 155 = "lightweight" ∧
     poundClass 170 = "welterweight" ∧ poundClass 185 = "middleweight" ∧
     poundClass 205 = "light-heavyweight" ∧ poundClass 206 = "heavyweight") := by
  refine ⟨?_, ?_, by decide⟩
  · intro caps hc
    unfold identify_weight_class
    rw [if_neg hne]
    simp [hkey, hc]
  · intro hn caps hc
    unfold identify_weight_class
    rw [if_neg hne]
    simp [hkey, hn, hc]

/-- C9 witness: `"93 kg"` converts to 205 lbs (truncated) and maps to the
light-heavyweight class. -/
theorem identify_weight_class_thresholds_witness :
    (identify_weight_class "93 kg" sampleState).1 = some "light-heavyweight" := by
  have h := identify_weight_class_thresholds "93 kg" sampleState (by decide) (by decide)
  have h2 := h.2.1 (by decide) [(1, "93")] (by decide)
  exact h2

/-- A state whose loaded rankings contain a division named "205 Lbs Cup". -/
def adversarialDivState : AppState := initState none (some [⟨"205 Lbs Cup", "cup"⟩])

/-- C9 counterexample: the phrase `"205 lbs cup"` contains the numeric
weight mention "205 lbs", whose thresholds give light-heavyweight, but
`identify_weight_class` returns the id of the loaded division whose name
the whole phrase equals: the mapping check preempts the numeric branch. -/
theorem identify_weight_class_counterexample :
    (identify_weight_class "205 lbs cup" adversarialDivState).1 = some "cup" ∧
    (rxSearch wtP1 (pyStrip (lowStr "205 lbs cup"))).isSome = true ∧
    ¬ (some ("cup" : String) = some ("light-heavyweight" : String)) := by
  refine ⟨by decide, by decide, by decide⟩

/-! ## Claim C10: the classifier is total over the intent enumeration -/

/-- The declared intent variants. -/
def intentLabels : List String :=
  ["fighter_info", "fighter_attribute", "fighter_comparison", "physical_comparison",
   "division_champion", "division_rankings", "division_info", "all_champions",
   "all_rankings", "general_mma_question", "unknown"]

theorem tryComparisonMatch_ok (ml : String) (c : Option String) (n1 n2 : String)
    (st : AppState) (r : QueryResult)
    (h : (tryComparisonMatch ml c n1 n2 st).1 = some r) :
    r.intent = "fighter_comparison" := by
  unfold tryComparisonMatch at h
  dsimp only at h
  split at h
  · simp at h
    subst h
    rfl
  · simp at h

theorem parse_fighter_comparison_ok (m : String) (st : AppState) (r : QueryResult)
    (h : (parse_fighter_comparison m st).1 = some r) :
    r.intent = "fighter_comparison" := by
  unfold parse_fighter_comparison at h
  dsimp only at h
  split at h
  next r1 st1 heq =>
    simp only at h
    have hr : r1 = r := by simpa using h
    subst hr
    split at heq
    next caps hsearch => exact tryComparisonMatch_ok _ _ _ _ _ r1 (by rw [heq])
    next hsearch => exact absurd heq (by simp)
  next st1 heq =>
    split at h
    next r2 st2 heq2 =>
      simp only at h
      have hr : r2 = r := by simpa using h
      subst hr
      split at heq2
      next caps hsearch => exact tryComparisonMatch_ok _ _ _ _ _ r2 (by rw [heq2])
      next hsearch => exact absurd heq2 (by simp)
    next st2 heq2 =>
      split at h
      next caps hsearch => exact tryComparisonMatch_ok _ _ _ _ _ r h
      next hsearch => simp at h

theorem tryPatternsResolve_ok (pats : List Rx) (ml : String) (st : AppState)
    (mk : String → QueryResult) (tag : String) (hmk : ∀ fid, (mk fid).intent = tag)
    (r : QueryResult) (h : (tryPatternsResolve pats ml st mk).1 = some r) :
    r.intent = tag := by
  induction pats generalizing st with
  | nil => simp [tryPatternsResolve] at h
  | cons p rest ih =>
    unfold tryPatternsResolve at h
    split at h
    next caps hsearch =>
      dsimp only at h
      split at h
      next fid hres =>
        simp at h
        subst h
        exact hmk fid
      next hres => exact ih _ h
    next hsearch => exact ih _ h

theorem tryPatternsDivision_ok (pats : List Rx) (ml : String) (st : AppState)
    (tag : String) (r : QueryResult)
    (h : (tryPatternsDivision pats ml st tag).1 = some r) : r.intent = tag := by
  induction pats generalizing st with
  | nil => simp [tryPatternsDivision] at h
  | cons p rest ih =>
    unfold tryPatternsDivision at h
    split at h
    next caps hsearch =>
      dsimp only at h
      split at h
      next divisionId st1 hnd =>
        simp at h
        subst h
        rfl
      next st1 hnd => exact ih _ h
    next hsearch => exact ih _ h

theorem single_word_stage_ok (ml : String) (st : AppState) (r : QueryResult)
    (h : (single_word_stage ml st).1 = some r) : r.intent = "fighter_info" := by
  unfold single_word_stage at h
  split at h
  · dsimp only at h
    split at h
    · split at h
      next fid hres =>
        simp at h
        subst h
        rfl
      next hres => simp at h
    · simp at h
  · simp at h

theorem attr_fighter_stage_ok (ml : String) (isPhysical : Bool)
    (attributeData : Option AttrData) (st : AppState) (r : QueryResult)
    (h : (attr_fighter_stage ml isPhysical attributeData st).1 = some r) :
    r.intent = "fighter_attribute" := by
  unfold attr_fighter_stage at h
  split at h
  · exact tryPatternsResolve_ok _ _ _ _ "fighter_attribute" (fun fid => rfl) r h
  · simp at h

theorem parseOpenRest_ok (ml : String) (st : AppState) :
    (parseOpenRest ml st).1.intent ∈ intentLabels := by
  unfold parseOpenRest
  rcases hidw : identify_weight_class ml st with ⟨o, st1⟩
  cases o with
  | some divisionId =>
    dsimp only
    split <;> simp [intentLabels]
  | none =>
    dsimp only
    repeat' split
    all_goals simp [intentLabels]

theorem parse_open_query_ok (m : String) (st : AppState) :
    (parse_open_query m st).1.intent ∈ intentLabels := by
  unfold parse_open_query
  dsimp only
  split
  · split <;> simp [intentLabels]
  · split
    next hw =>
      split
      next divisionId st1 hid => split <;> simp [intentLabels]
      next st1 hid => exact parseOpenRest_ok _ _
    next hw => exact parseOpenRest_ok _ _

/-- C10 (confirmed): `parse_query_intent` is total over the declared
intent enumeration — for every input string and state the result carries
an `intent` tag among the eleven variants, with `unknown` as the final
fallback (totality itself is by construction: the embedding is a total
function). -/
theorem parse_query_intent_total (message : String) (st : AppState) :
    (parse_query_intent message st).1.intent ∈ intentLabels := by
  unfold parse_query_intent
  split
  · simp [intentLabels]
  · dsimp only
    split
    next r st1 heq =>
      have hi := parse_fighter_comparison_ok _ _ r (by rw [heq])
      simp [intentLabels, hi]
    next st1 heq =>
      split
      next r st2 heq2 =>
        have hi := tryPatternsResolve_ok RECORD_PATTERNS _ _ _ "fighter_info"
          (fun fid => rfl) r (by rw [heq2])
        simp [intentLabels, hi]
      next st2 heq2 =>
        split
        next r st3 heq3 =>
          have hi := single_word_stage_ok _ _ r (by rw [heq3])
          simp [intentLabels, hi]
        next st3 heq3 =>
          split
          · simp [intentLabels]
          · split
            · split <;> simp [intentLabels]
            · split
              next r st4 heq5 =>
                have hi := tryPatternsDivision_ok CHAMPION_PATTERNS _ _ _ r (by rw [heq5])
                simp [intentLabels, hi]
              next st4 heq5 =>
                split
                next r st5 heq6 =>
                  have hi := tryPatternsDivision_ok RANKING_PATTERNS _ _ _ r (by rw [heq6])
                  simp [intentLabels, hi]
                next st5 heq6 =>
                  split
                  next r st6 heq7 =>
                    have hi := attr_fighter_stage_ok _ _ _ _ r (by rw [heq7])
                    simp [intentLabels, hi]
                  next st6 heq7 =>
                    split
                    next r st7 heq8 =>
                      have hi := tryPatternsResolve_ok FIGHTER_PATTERNS _ _ _
                        "fighter_info" (fun fid => rfl) r (by rw [heq8])
                      simp [intentLabels, hi]
                    next st7 heq8 =>
                      split
                      · split <;> simp [intentLabels]
                      · split
                        · split <;> simp [intentLabels]
                        · split
                          next divisionId st8 heq9 =>
                            simp [intentLabels]
                          next st8 heq9 =>
                            split
                            · simpa [intentLabels] using
                                parse_open_query_ok (pyStrip (lowStr message)) st8
                            · split
                              · simp [intentLabels]
                              · split
                                next divisionId st10 heq11 =>
                                  simp [intentLabels]
                                next st10 heq11 =>
                                  simp [intentLabels]
